import Mathlib

/-!
# Verification of the Vietnam-Environmental-Data ingestion pipeline

Shallow embedding of the cleaning / dimensional-transform / load logic of
the repository (Cleaners: air, water, climate; crawlers: soil, water), with
theorems settling the frozen specification claims.

Modelling conventions:
* pandas `DataFrame`s become `List` of typed row structures; a cell that is
  `NaN`/missing becomes `none`.
* floating-point cells are modelled as rationals (`ℚ`); per the source, cells
  that fail numeric coercion or are `±inf` are coerced to `NaN` before any
  arithmetic, so they enter the model as `none`.
* randomness (`random.uniform`, `np.random.uniform`) is modelled by explicit
  streams of unit draws `u ∈ [0,1]`, with `uniform a b u = a + (b-a)·u`.
* effectful load code becomes a trace of explicit events.
-/

/- Batteries marks the `Rat` field operations `@[irreducible]`, which blocks
only the elaborator's evaluation inside `decide` (the kernel ignores
reducibility attributes).  Restore the default so concrete rational
computations can be settled by `decide`. -/
set_option allowUnsafeReducibility true in
attribute [semireducible] Rat.add Rat.mul Rat.inv Rat.sub Rat.ofScientific

namespace VnEnv

/-! ## Rational helpers: sorting, median, quantile, rounding, clipping -/

/-- Insert a rational into a sorted list (ascending). -/
def insertQ (x : ℚ) : List ℚ → List ℚ
  | [] => [x]
  | y :: ys => if x ≤ y then x :: y :: ys else y :: insertQ x ys

/-- Insertion sort, ascending.  Models the sort used by `Series.median` and
`Series.quantile` (both operate on the sorted non-NaN values). -/
def sortQ : List ℚ → List ℚ
  | [] => []
  | x :: xs => insertQ x (sortQ xs)

/-- `pandas.Series.median` on the non-NaN values: middle element of the sorted
list for odd length, mean of the two middle elements for even length, `NaN`
(here `none`) when no value is present. -/
def medianQ (xs : List ℚ) : Option ℚ :=
  let s := sortQ xs
  let n := s.length
  if n = 0 then none
  else if n % 2 = 1 then some (s.getD (n / 2) 0)
  else some ((s.getD (n / 2 - 1) 0 + s.getD (n / 2) 0) / 2)

/-- `pandas.Series.quantile(q)` with the default linear interpolation, on the
non-NaN values: at position `h = (n-1)·q` of the sorted list, interpolating
between the neighbouring elements. -/
def quantileQ (q : ℚ) (xs : List ℚ) : Option ℚ :=
  let s := sortQ xs
  let n := s.length
  if n = 0 then none
  else
    let h : ℚ := (n - 1 : ℕ) * q
    let i : ℕ := h.floor.toNat
    let frac : ℚ := h - (i : ℚ)
    if i + 1 < n then some (s.getD i 0 + frac * (s.getD (i + 1) 0 - s.getD i 0))
    else some (s.getD (n - 1) 0)

/-- Round-half-to-even on rationals (the rounding of `numpy.round`). -/
def roundHalfEven (y : ℚ) : ℤ :=
  if y - y.floor < 1 / 2 then y.floor
  else if 1 / 2 < y - y.floor then y.floor + 1
  else if Even y.floor then y.floor else y.floor + 1

/-- `Series.round(2)`: round to two decimal places, half to even. -/
def round2 (x : ℚ) : ℚ := (roundHalfEven (100 * x) : ℚ) / 100

/-- `numpy`/pandas `clip(lower, upper)` on a present value:
`min (max x lower) upper`, each bound applied only when present (a `NaN`
bound imposes no constraint). -/
def clipQ (lo hi : Option ℚ) (x : ℚ) : ℚ :=
  let x₁ := match lo with | none => x | some l => max x l
  match hi with | none => x₁ | some h => min x₁ h

/-! ## Generic dataframe helpers: dedup, surrogate keys, dict lookup -/

/-- Worker for `drop_duplicates`: keep a row iff its key was not seen yet. -/
def distinctByAux {α κ : Type _} [DecidableEq κ] (key : α → κ)
    (seen : List κ) : List α → List α
  | [] => []
  | x :: xs =>
      if key x ∈ seen then distinctByAux key seen xs
      else x :: distinctByAux key (key x :: seen) xs

/-- `DataFrame.drop_duplicates(subset=...)` (keep the first row with each key
value). -/
def distinctByFirstSeen {α κ : Type _} [DecidableEq κ] (key : α → κ)
    (l : List α) : List α :=
  distinctByAux key [] l

/-- `DataFrame.drop_duplicates()` (keep the first occurrence). -/
def distinctFirstSeen {α : Type _} [DecidableEq α] (l : List α) : List α :=
  distinctByAux id [] l

/-- `reset_index(drop=True).assign(id = index + 1)`: pair each row with the
surrogate keys `1..k` in list order, starting at `n`. -/
def withIdsFrom {α : Type _} (n : ℕ) : List α → List (α × ℕ)
  | [] => []
  | x :: xs => (x, n) :: withIdsFrom (n + 1) xs

/-- Surrogate keys `1..k` in first-seen order: the dimension-table builder
`df[cols].drop_duplicates().reset_index(drop=True).assign(id = index+1)`. -/
def mkDim {α : Type _} [DecidableEq α] (keys : List α) : List (α × ℕ) :=
  withIdsFrom 1 (distinctFirstSeen keys)

/-- The surrogate-key assignment discipline of a dimension table built over
the key list `keys` (one entry per input row, in input order): ids are
`1..k` in table order, no key tuple appears twice, the table holds exactly
the distinct key tuples of the input, and table order is first-seen input
order (earlier table rows have strictly earlier first occurrences). -/
def DimAssign {α : Type _} [DecidableEq α] (keys : List α)
    (dim : List (α × ℕ)) : Prop :=
  dim.map Prod.snd = List.range' 1 dim.length ∧
  (dim.map Prod.fst).Nodup ∧
  (∀ x, x ∈ dim.map Prod.fst ↔ x ∈ keys) ∧
  (dim.map Prod.fst).Pairwise
    (fun a b => keys.indexOf a < keys.indexOf b)

/-- Lookup in the dict produced by `set_index(cols)[id].to_dict()`: Python dict
insertion overwrites, so a duplicated key resolves to its **last** occurrence. -/
def lookupLast {α β : Type _} [DecidableEq α] (m : List (α × β)) (k : α) :
    Option β :=
  match m with
  | [] => none
  | (k', v) :: rest =>
      match lookupLast rest k with
      | some v' => some v'
      | none => if k = k' then some v else none

/-! ### Lemmas on the generic helpers -/

theorem insertQ_perm (x : ℚ) (l : List ℚ) : (insertQ x l).Perm (x :: l) := by
  induction l with
  | nil => simp [insertQ]
  | cons y ys ih =>
      by_cases h : x ≤ y
      · simp [insertQ, h]
      · simp only [insertQ, if_neg h]
        exact (List.Perm.cons y ih).trans (List.Perm.swap x y ys)

theorem sortQ_perm (l : List ℚ) : (sortQ l).Perm l := by
  induction l with
  | nil => simp [sortQ]
  | cons x xs ih =>
      exact (insertQ_perm x (sortQ xs)).trans (List.Perm.cons x ih)

theorem mem_insertQ {x y : ℚ} {l : List ℚ} (h : y ∈ insertQ x l) :
    y = x ∨ y ∈ l := by
  have := (insertQ_perm x l).mem_iff.mp h
  simpa using this

theorem mem_sortQ {y : ℚ} {l : List ℚ} (h : y ∈ sortQ l) : y ∈ l :=
  (sortQ_perm l).mem_iff.mp h

theorem sortQ_length (l : List ℚ) : (sortQ l).length = l.length :=
  (sortQ_perm l).length_eq

/-- Members of `distinctByAux key seen l` are members of `l`. -/
theorem mem_of_mem_distinctByAux {α κ : Type _} [DecidableEq κ]
    {key : α → κ} {y : α} {l : List α} :
    ∀ {seen : List κ}, y ∈ distinctByAux key seen l → y ∈ l := by
  induction l with
  | nil => intro seen h; simp [distinctByAux] at h
  | cons x xs ih =>
      intro seen h
      simp only [distinctByAux] at h
      by_cases hx : key x ∈ seen
      · rw [if_pos hx] at h
        exact List.mem_cons_of_mem x (ih h)
      · rw [if_neg hx] at h
        rcases List.mem_cons.mp h with h | h
        · exact h ▸ List.mem_cons_self x xs
        · exact List.mem_cons_of_mem x (ih h)

/-- Members of `distinctFirstSeen l` are members of `l`. -/
theorem mem_of_mem_distinctFirstSeen {α : Type _} [DecidableEq α]
    {y : α} {l : List α} (h : y ∈ distinctFirstSeen l) : y ∈ l :=
  mem_of_mem_distinctByAux h

/-- Values found by `lookupLast` are values stored in the association list. -/
theorem lookupLast_mem {α β : Type _} [DecidableEq α]
    {m : List (α × β)} {k : α} {v : β} (h : lookupLast m k = some v) :
    v ∈ m.map Prod.snd := by
  induction m with
  | nil => simp [lookupLast] at h
  | cons p rest ih =>
      obtain ⟨k', v'⟩ := p
      simp only [lookupLast] at h
      cases hrest : lookupLast rest k with
      | some w =>
          rw [hrest] at h
          simp only [Option.some.injEq] at h
          subst h
          exact List.mem_cons_of_mem _ (ih hrest)
      | none =>
          rw [hrest] at h
          by_cases hk : k = k'
          · simp only [if_pos hk, Option.some.injEq] at h
            simp [h]
          · simp [if_neg hk] at h

/-! ## Python string primitives (ASCII model)

`str.lower` is modelled on ASCII letters only and `str.strip` on the ASCII
whitespace characters; the concrete data of this pipeline is ASCII. -/

/-- Lower-case an ASCII letter (model of Python `str.lower` per character). -/
def lcChar (c : Char) : Char :=
  if 65 ≤ c.toNat ∧ c.toNat ≤ 90 then Char.ofNat (c.toNat + 32) else c

/-- Python `str.lower()`. -/
def pyLower (s : String) : String := String.mk (s.data.map lcChar)

/-- Whitespace stripped by Python `str.strip()`. -/
def isPySpace (c : Char) : Bool :=
  decide (c = ' ' ∨ c = '\t' ∨ c = '\n' ∨ c = '\r' ∨ c = '\x0b' ∨ c = '\x0c')

/-- Python `str.strip()`. -/
def pyStrip (s : String) : String :=
  String.mk (((s.data.dropWhile isPySpace).reverse.dropWhile isPySpace).reverse)

def isDigitCh (c : Char) : Bool := decide (48 ≤ c.toNat ∧ c.toNat ≤ 57)

def digitVal (c : Char) : ℕ := c.toNat - 48

/-- Recognizer for the canonical timestamp format `%Y-%m-%d %H:%M:%S` that this
pipeline itself emits.  `pd.to_datetime(errors="coerce")` accepts further
formats; the model treats only canonical strings as parseable (`NaT`
otherwise), which is exact on the pipeline's own outputs and on the inputs
used in the theorems below. -/
def isCanonTs (s : String) : Bool :=
  match s.data with
  | [y1, y2, y3, y4, s1, mo1, mo2, s2, d1, d2, sp, h1, h2, c1, mi1, mi2, c2,
     ss1, ss2] =>
      isDigitCh y1 && isDigitCh y2 && isDigitCh y3 && isDigitCh y4 &&
      decide (s1 = '-') && isDigitCh mo1 && isDigitCh mo2 &&
      decide (s2 = '-') && isDigitCh d1 && isDigitCh d2 &&
      decide (sp = ' ') && isDigitCh h1 && isDigitCh h2 &&
      decide (c1 = ':') && isDigitCh mi1 && isDigitCh mi2 &&
      decide (c2 = ':') && isDigitCh ss1 && isDigitCh ss2 &&
      decide (1 ≤ 10 * digitVal mo1 + digitVal mo2) &&
      decide (10 * digitVal mo1 + digitVal mo2 ≤ 12) &&
      decide (1 ≤ 10 * digitVal d1 + digitVal d2) &&
      decide (10 * digitVal d1 + digitVal d2 ≤ 31) &&
      decide (10 * digitVal h1 + digitVal h2 ≤ 23) &&
      decide (10 * digitVal mi1 + digitVal mi2 ≤ 59) &&
      decide (10 * digitVal ss1 + digitVal ss2 ≤ 59)
  | _ => false

/-- `fillna` on one numeric cell: a present value is kept, a missing one is
replaced by the default (which may itself be missing — `fillna(NaN)` is a
no-op). -/
def fillCell (v d : Option ℚ) : Option ℚ :=
  match v with
  | some x => some x
  | none => d

/-- `fillna` on one string cell. -/
def fillCellS (v d : Option String) : Option String :=
  match v with
  | some x => some x
  | none => d

namespace AirCleaner

/-!
## `src/Cleaners/air_cleaner.py`

`clean_data` (lines 249-334) and `transform_data` (lines 336-398).
All columns named by the source are modelled; a `DataFrame` is a
`List AirRow`.  The column-existence tests (`col in df.columns`) are `True`
throughout because the row type carries every column of the air schema.
-/

/-- The `numeric_cols` list of `clean_data` (line 253). -/
inductive NumCol
  | aqi | pm25 | pm10 | o3 | no2 | so2 | co | nh3
  | temperature | humidity | pressure | wind_speed | wind_direction
  | visibility
deriving DecidableEq

def NumCol.all : List NumCol :=
  [.aqi, .pm25, .pm10, .o3, .no2, .so2, .co, .nh3,
   .temperature, .humidity, .pressure, .wind_speed, .wind_direction,
   .visibility]

theorem NumCol.mem_all_num (c : NumCol) : c ∈ NumCol.all := by
  cases c <;> simp [NumCol.all]

instance : DecidableEq (NumCol → Option ℚ) := fun f g =>
  decidable_of_iff (∀ c ∈ NumCol.all, f c = g c)
    (by
      constructor
      · intro h
        funext c
        exact h c (NumCol.mem_all_num c)
      · intro h c _
        rw [h])

/-- One raw/cleaned air-quality record: the numeric measurement columns plus
the categorical columns (`categorical_cols`, line 254), the timestamp, the
coordinates, and the two columns dropped at the end of cleaning. -/
structure AirRow where
  num : NumCol → Option ℚ
  city : Option String
  province : Option String
  city_source : Option String
  source : Option String
  status : Option String
  weather_condition : Option String
  timestamp : Option String
  latitude : Option ℚ
  longitude : Option ℚ
  uv_index : Option ℚ
  aqi_cn : Option ℚ

instance : DecidableEq AirRow := fun a b => by
  cases a
  cases b
  exact decidable_of_iff _ (iff_of_eq (AirRow.mk.injEq ..)).symm

/-- The non-NaN values of one numeric column of the batch. -/
def colVals (rows : List AirRow) (c : NumCol) : List ℚ :=
  rows.filterMap (fun r => r.num c)

/-- Lines 261-262: fill numeric nulls with the column median of the incoming
batch and categorical nulls with `"unknown"` (one simultaneous `df.fillna`
per dict). -/
def fillMediansUnknown (rows : List AirRow) : List AirRow :=
  let med := fun c => medianQ (colVals rows c)
  rows.map fun r =>
    { r with
      num := fun c => fillCell (r.num c) (med c)
      city := fillCellS r.city (some "unknown")
      province := fillCellS r.province (some "unknown")
      city_source := fillCellS r.city_source (some "unknown")
      source := fillCellS r.source (some "unknown")
      status := fillCellS r.status (some "unknown")
      weather_condition := fillCellS r.weather_condition (some "unknown") }

/-- The `min_thresholds` table (lines 265-273); `0.2` as an exact rational. -/
def minThreshold : NumCol → Option ℚ
  | .pm25 => some 5
  | .pm10 => some 5
  | .o3 => some 3
  | .no2 => some 3
  | .so2 => some 3
  | .co => some (1 / 5)
  | .nh3 => some (1 / 5)
  | _ => none

/-- Lines 274-277: a present value `x ≤ min_val` is replaced by `min_val`. -/
def applyMinThresholds (rows : List AirRow) : List AirRow :=
  rows.map fun r =>
    { r with
      num := fun c =>
        match minThreshold c, r.num c with
        | some m, some x => some (if x ≤ m then m else x)
        | _, v => v }

/-- Lines 283-284: an AQI outside `[10, 500]` becomes `NaN`. -/
def aqiBoundNull (rows : List AirRow) : List AirRow :=
  rows.map fun r =>
    { r with
      num := fun c =>
        if c = NumCol.aqi then
          (r.num NumCol.aqi).bind fun x =>
            if x < 10 ∨ 500 < x then none else some x
        else r.num c }

/-- Lines 285-286: refill AQI nulls with the median of the remaining values. -/
def aqiFillMedian (rows : List AirRow) : List AirRow :=
  let m := medianQ (colVals rows NumCol.aqi)
  rows.map fun r =>
    { r with
      num := fun c =>
        if c = NumCol.aqi then fillCell (r.num NumCol.aqi) m
        else r.num c }

/-- Lines 289-290: every numeric column is clipped to
`[0, column.quantile(0.999)]` and rounded to two decimals.  Each loop
iteration touches only its own column, so the per-column form is exact. -/
def clipRoundAll (rows : List AirRow) : List AirRow :=
  let q := fun c => quantileQ (999 / 1000) (colVals rows c)
  rows.map fun r =>
    { r with
      num := fun c => (r.num c).map fun x => round2 (clipQ (some 0) (q c) x) }

/-- Lines 294-297: parse the timestamp (`errors="coerce"`), localize to
`Asia/Ho_Chi_Minh` (a fixed-offset zone: the wall-clock fields are unchanged
and never ambiguous), and format back with `%Y-%m-%d %H:%M:%S` — the
identity on canonical strings, `NaT → NaN` otherwise. -/
def tsStepAir (v : Option String) : Option String :=
  v.bind fun s => if isCanonTs s then some s else none

def processTimestamps (rows : List AirRow) : List AirRow :=
  rows.map fun r => { r with timestamp := tsStepAir r.timestamp }

/-- The `weather_mapping` dict (lines 300-303). -/
def weatherMapping : List (String × String) :=
  [("clouds", "cloudy"), ("clear", "clear"), ("rain", "rain"),
   ("snow", "snow"), ("mist", "mist"), ("fog", "fog")]

/-- `Series.replace` with a dict: exact-match substitution. -/
def applyMapping (m : List (String × String)) (s : String) : String :=
  match m.find? (fun p => p.1 == s) with
  | some p => p.2
  | none => s

/-- Lines 304-309: lower, strip, empty string to `NaN`, `fillna("unknown")`,
then the `weather_mapping` replacement. -/
def weatherStep (v : Option String) : Option String :=
  let w := (v.map fun s => pyStrip (pyLower s)).bind fun s =>
    if s = "" then none else some s
  some (applyMapping weatherMapping (w.getD "unknown"))

def processWeather (rows : List AirRow) : List AirRow :=
  rows.map fun r =>
    { r with weather_condition := weatherStep r.weather_condition }

/-- Lines 312-313: `.str.lower().str.strip()` on a categorical cell. -/
def normCat (v : Option String) : Option String :=
  v.map fun s => pyStrip (pyLower s)

def normCategoricals (rows : List AirRow) : List AirRow :=
  rows.map fun r =>
    { r with
      city := normCat r.city
      province := normCat r.province
      city_source := normCat r.city_source
      source := normCat r.source
      status := normCat r.status
      weather_condition := normCat r.weather_condition }

/-- Line 322 / line 325: a coordinate outside the given range becomes `NaN`
(`NaN` comparisons are false, so `NaN` stays `NaN`). -/
def validateCoord (lo hi : ℚ) (v : Option ℚ) : Option ℚ :=
  v.bind fun x => if lo ≤ x ∧ x ≤ hi then some x else none

/-- `groupby("city")[col].transform(lambda x: x.fillna(x.mean()))`: the mean
of the group's non-null values (`NaN` when the group has none). -/
def groupMean (rows : List AirRow) (cityv : Option String)
    (get : AirRow → Option ℚ) : Option ℚ :=
  let vals := (rows.filter fun r => decide (r.city = cityv)).filterMap get
  if vals.length = 0 then none else some (vals.sum / vals.length)

/-- Lines 321-323: validate longitudes, then fill nulls with the city-group
mean.  A row whose `city` is `NaN` belongs to no group (`groupby` drops `NaN`
keys) and receives `NaN` from the transform. -/
def lonStep (rows : List AirRow) : List AirRow :=
  let rows₁ := rows.map fun r =>
    { r with longitude := validateCoord (-180) 180 r.longitude }
  rows₁.map fun r =>
    match r.city with
    | none => { r with longitude := none }
    | some _ =>
        { r with
          longitude := fillCell r.longitude
            (groupMean rows₁ r.city (fun x => x.longitude)) }

/-- Lines 324-326: the same for latitudes with range `[-90, 90]`. -/
def latStep (rows : List AirRow) : List AirRow :=
  let rows₁ := rows.map fun r =>
    { r with latitude := validateCoord (-90) 90 r.latitude }
  rows₁.map fun r =>
    match r.city with
    | none => { r with latitude := none }
    | some _ =>
        { r with
          latitude := fillCell r.latitude
            (groupMean rows₁ r.city (fun x => x.latitude)) }

/-- Line 329: `df.drop(columns=["uv_index", "aqi_cn"])`, modelled by clearing
the two fields on every row. -/
def dropExtraCols (rows : List AirRow) : List AirRow :=
  rows.map fun r => { r with uv_index := none, aqi_cn := none }

/-- `clean_data` (lines 249-334), steps composed in source order. -/
def cleanData (rows : List AirRow) : List AirRow :=
  dropExtraCols
    (latStep
      (lonStep
        (distinctFirstSeen
          (normCategoricals
            (processWeather
              (processTimestamps
                (clipRoundAll
                  (aqiFillMedian
                    (aqiBoundNull
                      (applyMinThresholds
                        (fillMediansUnknown rows)))))))))))

/-- A row already in fully-cleaned canonical form, on which every step of
`clean_data` acts as the identity: numeric, coordinate and dropped cells
null; canonical timestamp; categorical cells present and fixed by the
weather and lower/strip normalizations. -/
def CleanForm (r : AirRow) : Prop :=
  (∀ c ∈ NumCol.all, r.num c = none) ∧
  r.latitude = none ∧ r.longitude = none ∧
  r.uv_index = none ∧ r.aqi_cn = none ∧
  tsStepAir r.timestamp = r.timestamp ∧
  r.city.isSome = true ∧ r.province.isSome = true ∧
  r.city_source.isSome = true ∧ r.source.isSome = true ∧
  r.status.isSome = true ∧ r.weather_condition.isSome = true ∧
  normCat r.city = r.city ∧ normCat r.province = r.province ∧
  normCat r.city_source = r.city_source ∧ normCat r.source = r.source ∧
  normCat r.status = r.status ∧
  normCat r.weather_condition = r.weather_condition ∧
  weatherStep r.weather_condition = r.weather_condition

instance : DecidablePred CleanForm := fun r => by
  unfold CleanForm
  infer_instance

/-! ### `transform_data` (lines 336-398) -/

/-- A row of the `AirQualityRecord` fact table (lines 380-388): timestamp,
surrogate foreign keys, the measurement columns, `status`, `record_id`. -/
structure AirFact where
  timestamp : Option String
  city_id : Option ℕ
  source_id : Option ℕ
  condition_id : Option ℕ
  num : NumCol → Option ℚ
  status : Option String
  record_id : ℕ

instance : DecidableEq AirFact := fun a b => by
  cases a
  cases b
  exact decidable_of_iff _ (iff_of_eq (AirFact.mk.injEq ..)).symm

structure AirTables where
  cities : List ((Option String × Option String × Option ℚ × Option ℚ) × ℕ)
  sources : List (Option String × ℕ)
  conditions : List (Option String × ℕ)
  facts : List AirFact

/-- `transform_data` (lines 336-398): dimension tables from
`drop_duplicates` in first-seen order with surrogate keys `index + 1`;
lookup dicts from `set_index(...)[id].to_dict()` (duplicate keys resolve to
the last row); fact rows with the mapped foreign keys. -/
def transformData (rows : List AirRow) : AirTables :=
  let cities :=
    mkDim (rows.map fun r => (r.city, r.province, r.latitude, r.longitude))
  let sources := mkDim (rows.map fun r => r.source)
  let conditions := mkDim (rows.map fun r => r.weather_condition)
  let cityMap := cities.map fun p => ((p.1.1, p.1.2.1), p.2)
  let facts := (withIdsFrom 1 rows).map fun rp =>
    { timestamp := rp.1.timestamp
      city_id := lookupLast cityMap (rp.1.city, rp.1.province)
      source_id := lookupLast sources rp.1.source
      condition_id := lookupLast conditions rp.1.weather_condition
      num := rp.1.num
      status := rp.1.status
      record_id := rp.2 : AirFact }
  ⟨cities, sources, conditions, facts⟩

end AirCleaner

/-- A timestamp cell: a raw string as read from the CSV, or a parsed datetime
(pandas `Timestamp`), printed back in canonical form.  `pd.to_datetime`
accepts further formats; the model parses exactly the canonical ones (see
`isCanonTs`). -/
inductive TsCell
  | raw (s : String)
  | parsed (s : String)
deriving DecidableEq

/-- `pd.to_datetime(col, errors="coerce")` on one cell. -/
def toDatetime (v : Option TsCell) : Option TsCell :=
  v.bind fun t =>
    match t with
    | .raw s => if isCanonTs s then some (.parsed s) else none
    | .parsed s => some (.parsed s)

/-- `random.uniform(a, b)` / `np.random.uniform(a, b)` applied to one unit
draw `u`; the draw streams are explicit parameters of the model. -/
def uniform (a b u : ℚ) : ℚ := a + (b - a) * u

/-- The string-column normalization shared by the water and climate cleaners:
`astype(str).str.strip().replace("nan", None).replace({"None": None, "": None})`.
`astype(str)` renders a missing cell as `"nan"`, which the first replace maps
back to `None`. -/
def strClean (v : Option String) : Option String :=
  match v with
  | none => none
  | some s =>
      let t := pyStrip s
      if t = "nan" ∨ t = "None" ∨ t = "" then none else some t

/-- `float(x) if -1e308 < float(x) < 1e308 else None` (the JSON-safety pass of
the water and climate cleaners). -/
def jsonSafe (x : ℚ) : Option ℚ :=
  if -(10 ^ 308) < x ∧ x < 10 ^ 308 then some x else none

namespace WaterCleaner

/-!
## `src/Cleaners/water_cleaner.py`

`simulate_water_row` (lines 30-63), `clean_water_df` (lines 65-184) and
`transform_water_3nf` (lines 186-282).  Column names are canonical in the
model, so the initial column-name normalization (line 69) is the identity,
and every `col in df.columns` test is `True` because the row type carries
the whole water schema.
-/

/-- The `float_cols` list (lines 80-84). -/
inductive WNum
  | lat | lon | annual_rainfall_mm | groundwater_depth | rainfall_24h
  | rainfall_7d | evaporation_rate | water_quality_index
  | estimated_bacterial_risk | estimated_pollution_risk | estimated_ph_risk
  | estimated_water_quality_score
deriving DecidableEq

def WNum.all : List WNum :=
  [.lat, .lon, .annual_rainfall_mm, .groundwater_depth, .rainfall_24h,
   .rainfall_7d, .evaporation_rate, .water_quality_index,
   .estimated_bacterial_risk, .estimated_pollution_risk, .estimated_ph_risk,
   .estimated_water_quality_score]

theorem WNum.mem_all_wnum (c : WNum) : c ∈ WNum.all := by
  cases c <;> simp [WNum.all]

/-- The `str_cols` list (lines 125-129). -/
inductive WStr
  | location | province | region | major_river | water_availability
  | water_source_type | water_treatment_plants | water_quality_monitoring
  | flood_risk | drought_risk | water_stress_level | water_quality_category
  | water_abundance | source
deriving DecidableEq

def WStr.all : List WStr :=
  [.location, .province, .region, .major_river, .water_availability,
   .water_source_type, .water_treatment_plants, .water_quality_monitoring,
   .flood_risk, .drought_risk, .water_stress_level, .water_quality_category,
   .water_abundance, .source]

theorem WStr.mem_all_wstr (c : WStr) : c ∈ WStr.all := by
  cases c <;> simp [WStr.all]

instance : DecidableEq (WNum → Option ℚ) := fun f g =>
  decidable_of_iff (∀ c ∈ WNum.all, f c = g c)
    (by
      constructor
      · intro h
        funext c
        exact h c (WNum.mem_all_wnum c)
      · intro h c _
        rw [h])

instance : DecidableEq (WStr → Option String) := fun f g =>
  decidable_of_iff (∀ c ∈ WStr.all, f c = g c)
    (by
      constructor
      · intro h
        funext c
        exact h c (WStr.mem_all_wstr c)
      · intro h c _
        rw [h])

/-- One raw/cleaned water record: numeric and string measurement columns,
the two datetime columns, and the crawl provenance columns. -/
structure WaterRow where
  num : WNum → Option ℚ
  str : WStr → Option String
  timestamp : Option TsCell
  crawl_time : Option TsCell
  success : Option Bool
  error_code : Option String
  error_message : Option String

instance : DecidableEq WaterRow := fun a b => by
  cases a
  cases b
  exact decidable_of_iff _ (iff_of_eq (WaterRow.mk.injEq ..)).symm

/-- Lines 70-71: keep only rows whose `success` cell equals Python `True`
(`NaN == True` is false, so missing cells are dropped too). -/
def successFilter (rows : List WaterRow) : List WaterRow :=
  rows.filter fun r => decide (r.success = some true)

/-- Lines 72-73: drop the `error_code` / `error_message` columns, modelled by
clearing the field on every row. -/
def dropErrCols (rows : List WaterRow) : List WaterRow :=
  rows.map fun r => { r with error_code := none, error_message := none }

/-- Lines 74-75: `drop_duplicates(subset=["location", "timestamp"])`. -/
def dedupLocTs (rows : List WaterRow) : List WaterRow :=
  distinctByFirstSeen (fun r => (r.str WStr.location, r.timestamp)) rows

/-- Lines 76-79: drop rows missing any of `location`, `province`, `lat`,
`lon`, `timestamp` (a chain of `notnull` filters). -/
def requiredFilter (rows : List WaterRow) : List WaterRow :=
  rows.filter fun r =>
    (r.str WStr.location).isSome && (r.str WStr.province).isSome &&
    (r.num WNum.lat).isSome && (r.num WNum.lon).isSome && r.timestamp.isSome

/-- The clip bounds of lines 103-116, per column. -/
def clipBounds : WNum → ℚ × ℚ
  | .lat => (-180, 180)
  | .lon => (-180, 180)
  | .annual_rainfall_mm => (0, 10000)
  | .rainfall_24h => (0, 10000)
  | .rainfall_7d => (0, 10000)
  | .groundwater_depth => (0, 1000)
  | .evaporation_rate => (0, 100)
  | .water_quality_index => (0, 100)
  | .estimated_bacterial_risk => (0, 1)
  | .estimated_pollution_risk => (0, 1)
  | .estimated_ph_risk => (0, 1)
  | .estimated_water_quality_score => (0, 100)

/-- The `float_defaults` dict (lines 86-97); `None` defaults leave the cell
missing. -/
def floatDefault : WNum → Option ℚ
  | .annual_rainfall_mm => some 0
  | .rainfall_24h => some 0
  | .rainfall_7d => some 0
  | .evaporation_rate => some 0
  | _ => none

/-- Lines 98-124, one float column: numeric coercion and `±inf → NaN` are the
identity on the `Option ℚ` cell model; then clip to the column's range, fill
with the default when one is configured, and keep only JSON-safe values. -/
def floatCell (c : WNum) (v : Option ℚ) : Option ℚ :=
  let b := clipBounds c
  let v₁ := v.map (clipQ (some b.1) (some b.2))
  let v₂ := fillCell v₁ (floatDefault c)
  v₂.bind jsonSafe

def floatStep (rows : List WaterRow) : List WaterRow :=
  rows.map fun r => { r with num := fun c => floatCell c (r.num c) }

/-- Lines 130-133: normalize every string column. -/
def strStep (rows : List WaterRow) : List WaterRow :=
  rows.map fun r => { r with str := fun c => strClean (r.str c) }

/-- Lines 135-138: parse the two datetime columns. -/
def tsStep (rows : List WaterRow) : List WaterRow :=
  rows.map fun r =>
    { r with
      timestamp := toDatetime r.timestamp
      crawl_time := toDatetime r.crawl_time }

/-- Line 139: drop rows with an unparseable timestamp. -/
def tsFilter (rows : List WaterRow) : List WaterRow :=
  rows.filter fun r => r.timestamp.isSome

/-- Lines 141-158: positional fills — random coordinates for missing
`lat`/`lon` (`np.random.uniform` vectors, one unit draw per row), constant
defaults for the categorical columns, `datetime.now()` for the timestamp. -/
def fillStep (latDraw lonDraw : ℕ → ℚ) (now : String)
    (rows : List WaterRow) : List WaterRow :=
  (withIdsFrom 0 rows).map fun p =>
    let r := p.1
    { r with
      num := fun c =>
        match c with
        | .lat => fillCell (r.num WNum.lat) (some (uniform 8 23 (latDraw p.2)))
        | .lon =>
            fillCell (r.num WNum.lon) (some (uniform 102 110 (lonDraw p.2)))
        | _ => r.num c
      str := fun c =>
        match c with
        | .province => fillCellS (r.str WStr.province) (some "Unknown Province")
        | .region => fillCellS (r.str WStr.region) (some "Unknown Region")
        | .major_river =>
            fillCellS (r.str WStr.major_river) (some "Unknown River")
        | .water_quality_category =>
            fillCellS (r.str WStr.water_quality_category)
              (some "Unknown Category")
        | .water_source_type =>
            fillCellS (r.str WStr.water_source_type) (some "Unknown Source")
        | _ => r.str c
      timestamp :=
        match r.timestamp with
        | some t => some t
        | none => some (.parsed now) }

/-- The `important_cols` list (line 161). -/
def importantCols : List WNum :=
  [.lat, .lon, .annual_rainfall_mm, .rainfall_24h,
   .estimated_water_quality_score]

/-- Number of null cells of one column. -/
def nullCount (rows : List WaterRow) (c : WNum) : ℕ :=
  (rows.filter fun r => (r.num c).isNone).length

/-- Line 167: some important column has a null ratio above 30%.  (On an empty
frame the source crashes with an `AttributeError` — `(0 > 0.3).any()` on a
plain `bool` — before producing a cleaned result; the model's condition is
false there, and no theorem below depends on the empty-frame case.) -/
def escalationTriggered (rows : List WaterRow) : Bool :=
  importantCols.any fun c => decide (10 * nullCount rows c > 3 * rows.length)

/-- `simulate_water_row` (lines 30-63), restricted to the numeric fields the
escalation loop reads from it: `random.uniform` over the per-field envelope,
applied to the unit draw `u`. -/
def simValue (u : ℚ) : WNum → ℚ
  | .lat => uniform 8 23 u
  | .lon => uniform 102 110 u
  | .annual_rainfall_mm => uniform 1500 2500 u
  | .groundwater_depth => uniform 2 50 u
  | .rainfall_24h => uniform 0 80 u
  | .rainfall_7d => uniform 0 300 u
  | .evaporation_rate => uniform 1 10 u
  | .water_quality_index => uniform 40 90 u
  | .estimated_bacterial_risk => uniform 0 1 u
  | .estimated_pollution_risk => uniform 0 1 u
  | .estimated_ph_risk => uniform 0 1 u
  | .estimated_water_quality_score => uniform 50 95 u

/-- Lines 163-178: when triggered, fill every null important numeric cell
with a simulated value (`escDraw i c` is the unit draw for row `i`, column
`c`) and the null categorical cells with `simulate_water_row`'s constants
(`water_quality_category := "good"`, `water_source_type :=
"river_groundwater"`; for `region`/`province`/`major_river` the simulation
returns the row's own — null — value, so those cells are unchanged). -/
def escalate (escDraw : ℕ → WNum → ℚ) (rows : List WaterRow) :
    List WaterRow :=
  if escalationTriggered rows then
    (withIdsFrom 0 rows).map fun p =>
      let r := p.1
      { r with
        num := fun c =>
          if c ∈ importantCols ∧ (r.num c).isNone then
            some (simValue (escDraw p.2 c) c)
          else r.num c
        str := fun c =>
          match c with
          | .water_quality_category =>
              fillCellS (r.str WStr.water_quality_category) (some "good")
          | .water_source_type =>
              fillCellS (r.str WStr.water_source_type)
                (some "river_groundwater")
          | _ => r.str c }
  else rows

/-- The bounds discipline of a cleaned water row: every present float cell
lies within its column's clip range. -/
def WOK (r : WaterRow) : Prop :=
  ∀ c x, r.num c = some x →
    (clipBounds c).1 ≤ x ∧ x ≤ (clipBounds c).2

/-- `clean_water_df` (lines 65-184), steps composed in source order. -/
def cleanWaterDf (latDraw lonDraw : ℕ → ℚ) (escDraw : ℕ → WNum → ℚ)
    (now : String) (rows : List WaterRow) : List WaterRow :=
  escalate escDraw
    (fillStep latDraw lonDraw now
      (tsFilter
        (tsStep
          (strStep
            (floatStep
              (requiredFilter
                (dedupLocTs
                  (dropErrCols
                    (successFilter rows)))))))))

/-! ### `transform_water_3nf` (lines 186-282) -/

/-- The numeric columns selected into `water_fields` (lines 261-268):
`lat`/`lon` stay in the `Location` dimension only. -/
def factNumCols : List WNum :=
  [.annual_rainfall_mm, .groundwater_depth, .rainfall_24h, .rainfall_7d,
   .evaporation_rate, .water_quality_index, .estimated_bacterial_risk,
   .estimated_pollution_risk, .estimated_ph_risk,
   .estimated_water_quality_score]

/-- The string columns selected into `water_fields`; the dimension natural
keys are replaced by their surrogate ids, `flood_risk_weather` and
`temperature_stress` are absent from the cleaned frame and become all-null
columns. -/
def factStrCols : List WStr :=
  [.water_availability, .water_stress_level, .water_treatment_plants,
   .water_quality_monitoring, .flood_risk, .drought_risk, .water_abundance,
   .source]

/-- A row of the `WaterRecord` fact table. -/
structure WaterFact where
  timestamp : Option TsCell
  location_id : Option ℕ
  province_id : Option ℕ
  region_id : Option ℕ
  source_type_id : Option ℕ
  river_id : Option ℕ
  category_id : Option ℕ
  num : WNum → Option ℚ
  str : WStr → Option String

structure WaterTables where
  provinces : List ((Option String × Option String) × ℕ)
  regions : List (Option String × ℕ)
  rivers : List (Option String × ℕ)
  categories : List (Option String × ℕ)
  locations :
    List ((Option String × Option String × Option ℚ × Option ℚ ×
      Option String) × ℕ)
  sourceTypes : List (Option String × ℕ)
  facts : List WaterFact

/-- `transform_water_3nf` (lines 186-282): each dimension from
`drop_duplicates().reset_index(drop=True).assign(id = index + 1)`; lookup
dicts keyed by the natural-key columns (`set_index` keeps the last row for a
duplicated key); fact rows with the mapped foreign keys.  The `if ..._map:`
guards skip the id assignment when a lookup dict is empty — the fact column
is then created all-null by the `water_fields` loop. -/
def transformWater3nf (rows : List WaterRow) : WaterTables :=
  let provinces :=
    mkDim (rows.map fun r => (r.str WStr.province, r.str WStr.region))
  let regions := mkDim (rows.map fun r => r.str WStr.region)
  let rivers := mkDim (rows.map fun r => r.str WStr.major_river)
  let categories := mkDim (rows.map fun r => r.str WStr.water_quality_category)
  let locations :=
    mkDim (rows.map fun r =>
      (r.str WStr.location, r.str WStr.province, r.num WNum.lat,
       r.num WNum.lon, r.str WStr.region))
  let sourceTypes := mkDim (rows.map fun r => r.str WStr.water_source_type)
  let provMap := provinces.map fun p => (p.1.1, p.2)
  let locMap := locations.map fun p => ((p.1.1, p.1.2.1), p.2)
  let facts := rows.map fun r =>
    { timestamp := r.timestamp
      location_id :=
        if locations.isEmpty then none
        else lookupLast locMap (r.str WStr.location, r.str WStr.province)
      province_id :=
        if provinces.isEmpty then none
        else lookupLast provMap (r.str WStr.province)
      region_id :=
        if regions.isEmpty then none
        else lookupLast regions (r.str WStr.region)
      source_type_id :=
        if sourceTypes.isEmpty then none
        else lookupLast sourceTypes (r.str WStr.water_source_type)
      river_id :=
        if rivers.isEmpty then none
        else lookupLast rivers (r.str WStr.major_river)
      category_id :=
        if categories.isEmpty then none
        else lookupLast categories (r.str WStr.water_quality_category)
      num := fun c => if c ∈ factNumCols then r.num c else none
      str := fun c => if c ∈ factStrCols then r.str c else none : WaterFact }
  ⟨provinces, regions, rivers, categories, locations, sourceTypes, facts⟩

end WaterCleaner

namespace ClimateCleaner

/-!
## `src/Cleaners/climate_cleaner.py`

`clean_climate_df` (lines 30-142).  Column names are canonical in the model
(line 34's renaming is the identity) and every `col in df.columns` test is
`True` because the row type carries the whole climate schema.
-/

/-- The `float_cols` list (lines 45-49). -/
inductive CNum
  | temperature | feels_like | temp_min | temp_max | humidity | pressure
  | dew_point | uvi | rainfall | wind_speed | wind_deg | wind_gust
  | clouds | visibility | lat | lon
deriving DecidableEq

def CNum.all : List CNum :=
  [.temperature, .feels_like, .temp_min, .temp_max, .humidity, .pressure,
   .dew_point, .uvi, .rainfall, .wind_speed, .wind_deg, .wind_gust,
   .clouds, .visibility, .lat, .lon]

theorem CNum.mem_all_cnum (c : CNum) : c ∈ CNum.all := by
  cases c <;> simp [CNum.all]

/-- The `str_cols` list (lines 96-99). -/
inductive CStr
  | location | province | coord_string | country | weather_condition
  | weather_main | weather_icon | source
deriving DecidableEq

def CStr.all : List CStr :=
  [.location, .province, .coord_string, .country, .weather_condition,
   .weather_main, .weather_icon, .source]

theorem CStr.mem_all_cstr (c : CStr) : c ∈ CStr.all := by
  cases c <;> simp [CStr.all]

instance : DecidableEq (CNum → Option ℚ) := fun f g =>
  decidable_of_iff (∀ c ∈ CNum.all, f c = g c)
    (by
      constructor
      · intro h
        funext c
        exact h c (CNum.mem_all_cnum c)
      · intro h c _
        rw [h])

instance : DecidableEq (CStr → Option String) := fun f g =>
  decidable_of_iff (∀ c ∈ CStr.all, f c = g c)
    (by
      constructor
      · intro h
        funext c
        exact h c (CStr.mem_all_cstr c)
      · intro h c _
        rw [h])

/-- One raw/cleaned climate record. -/
structure ClimateRow where
  num : CNum → Option ℚ
  str : CStr → Option String
  timestamp : Option TsCell
  sunrise : Option TsCell
  sunset : Option TsCell
  crawl_time : Option TsCell
  success : Option Bool
  error_code : Option String
  error_message : Option String

instance : DecidableEq ClimateRow := fun a b => by
  cases a
  cases b
  exact decidable_of_iff _ (iff_of_eq (ClimateRow.mk.injEq ..)).symm

/-- Lines 35-36: keep only rows whose `success` cell equals Python `True`. -/
def successFilter (rows : List ClimateRow) : List ClimateRow :=
  rows.filter fun r => decide (r.success = some true)

/-- Lines 37-38: drop the `error_code` / `error_message` columns (modelled by
clearing the field on every row). -/
def dropErrCols (rows : List ClimateRow) : List ClimateRow :=
  rows.map fun r => { r with error_code := none, error_message := none }

/-- Lines 39-40: `drop_duplicates(subset=["location", "timestamp"])`. -/
def dedupLocTs (rows : List ClimateRow) : List ClimateRow :=
  distinctByFirstSeen (fun r => (r.str CStr.location, r.timestamp)) rows

/-- Lines 41-44: drop rows missing any of `location`, `province`, `lat`,
`lon`, `timestamp`, `temperature`. -/
def requiredFilter (rows : List ClimateRow) : List ClimateRow :=
  rows.filter fun r =>
    (r.str CStr.location).isSome && (r.str CStr.province).isSome &&
    (r.num CNum.lat).isSome && (r.num CNum.lon).isSome &&
    r.timestamp.isSome && (r.num CNum.temperature).isSome

/-- The clip branches of lines 74-88; `dew_point` and `rainfall` match no
branch and are not clipped. -/
def clipBounds : CNum → Option (ℚ × ℚ)
  | .lat => some (-180, 180)
  | .lon => some (-180, 180)
  | .temperature => some (-100, 100)
  | .feels_like => some (-100, 100)
  | .temp_min => some (-100, 100)
  | .temp_max => some (-100, 100)
  | .humidity => some (0, 100)
  | .pressure => some (0, 1000000)
  | .wind_speed => some (0, 1000000)
  | .wind_gust => some (0, 1000000)
  | .visibility => some (0, 1000000)
  | .clouds => some (0, 100)
  | .uvi => some (0, 20)
  | .wind_deg => some (0, 360)
  | .dew_point => none
  | .rainfall => none

/-- The `float_defaults` dict (lines 50-68). -/
def floatDefault : CNum → Option ℚ
  | .uvi => some 0
  | .rainfall => some 0
  | _ => none

/-- Lines 69-95, one float column (as in the water cleaner). -/
def floatCell (c : CNum) (v : Option ℚ) : Option ℚ :=
  let v₁ :=
    match clipBounds c with
    | some b => v.map (clipQ (some b.1) (some b.2))
    | none => v
  let v₂ := fillCell v₁ (floatDefault c)
  v₂.bind jsonSafe

def floatStep (rows : List ClimateRow) : List ClimateRow :=
  rows.map fun r => { r with num := fun c => floatCell c (r.num c) }

/-- Lines 100-103: normalize every string column. -/
def strStep (rows : List ClimateRow) : List ClimateRow :=
  rows.map fun r => { r with str := fun c => strClean (r.str c) }

/-- Lines 105-107: parse `timestamp`, `sunrise`, `sunset`, `crawl_time`. -/
def tsStep (rows : List ClimateRow) : List ClimateRow :=
  rows.map fun r =>
    { r with
      timestamp := toDatetime r.timestamp
      sunrise := toDatetime r.sunrise
      sunset := toDatetime r.sunset
      crawl_time := toDatetime r.crawl_time }

/-- Lines 109-115: drop rows with an unparseable timestamp or a missing
temperature (the `timestamp` column always exists in the model, so the
missing-column default of lines 109-112 does not arise). -/
def tsTempFilter (rows : List ClimateRow) : List ClimateRow :=
  (rows.filter fun r => r.timestamp.isSome).filter fun r =>
    (r.num CNum.temperature).isSome

/-- Line 116: keep only rows with `0 ≤ humidity ≤ 100` (`NaN` comparisons are
false, so rows with a missing humidity are dropped). -/
def humidityFilter (rows : List ClimateRow) : List ClimateRow :=
  rows.filter fun r =>
    match r.num CNum.humidity with
    | some x => decide (0 ≤ x ∧ x ≤ 100)
    | none => false

/-- Lines 118-136: random coordinates for missing `lat`/`lon`, constant
defaults for the categorical columns, `datetime.now()` for the timestamp. -/
def fillStep (latDraw lonDraw : ℕ → ℚ) (now : String)
    (rows : List ClimateRow) : List ClimateRow :=
  (withIdsFrom 0 rows).map fun p =>
    let r := p.1
    { r with
      num := fun c =>
        match c with
        | .lat => fillCell (r.num CNum.lat) (some (uniform 8 23 (latDraw p.2)))
        | .lon =>
            fillCell (r.num CNum.lon) (some (uniform 102 110 (lonDraw p.2)))
        | _ => r.num c
      str := fun c =>
        match c with
        | .province => fillCellS (r.str CStr.province) (some "Unknown Province")
        | .country => fillCellS (r.str CStr.country) (some "VN")
        | .weather_condition =>
            fillCellS (r.str CStr.weather_condition) (some "Clear")
        | .weather_main => fillCellS (r.str CStr.weather_main) (some "Clear")
        | .weather_icon => fillCellS (r.str CStr.weather_icon) (some "01d")
        | _ => r.str c
      timestamp :=
        match r.timestamp with
        | some t => some t
        | none => some (.parsed now) }

/-- `clean_climate_df` (lines 30-142), steps composed in source order. -/
def cleanClimateDf (latDraw lonDraw : ℕ → ℚ) (now : String)
    (rows : List ClimateRow) : List ClimateRow :=
  fillStep latDraw lonDraw now
    (humidityFilter
      (tsTempFilter
        (tsStep
          (strStep
            (floatStep
              (requiredFilter
                (dedupLocTs
                  (dropErrCols
                    (successFilter rows)))))))))

end ClimateCleaner

namespace SoilCrawler

/-!
## `src/crawlers/soil/soil_crawler.py`

The TTL cache (`load_cached_data`, lines 154-174; `get_soilgrids_data`,
lines 187-192), the per-location crawl wrapper (`crawl_soil_location`,
lines 704-768) and the orchestration endpoint (`run_enhanced_soil_crawl`,
lines 770-830).
-/

/-- A registry location (`load_locations_from_json` /
`get_default_vietnam_locations`): every entry carries `name`, `province`,
`lat`, `lon`. -/
structure Loc where
  name : String
  province : String
  lat : ℚ
  lon : ℚ
deriving DecidableEq

/-- The data gathered by the provider calls inside the `try` body of
`crawl_soil_location`: merged measurement fields and the `data_sources`
list. -/
structure SoilData where
  fields : List (String × ℚ)
  data_sources : List String
deriving DecidableEq

/-- One result record of the soil crawl.  A success record carries no
`success` key at all (the orchestrator reads it with
`result.get("success", True)`), hence `success := none` there; a failure
record has `success := some false` plus an `error_message`. -/
structure SoilRecord where
  timestamp : String
  location : String
  province : String
  lat : ℚ
  lon : ℚ
  data_sources : List String
  fields : List (String × ℚ)
  success : Option Bool
  error_message : Option String
deriving DecidableEq

/-- `crawl_soil_location` (lines 704-768).  The provider helpers each catch
their own errors and return `None`, but the `try` body as a whole may still
raise; the oracle `attempt` captures the body's outcome per location
(`.ok` with the gathered data, `.error` with the exception message), and the
`except` branch (lines 758-768) builds the failure record from the same
location fields. -/
def crawlSoilLocation (now : String)
    (attempt : Loc → Except String SoilData) (loc : Loc) : SoilRecord :=
  match attempt loc with
  | .ok d =>
      { timestamp := now
        location := loc.name
        province := loc.province
        lat := loc.lat
        lon := loc.lon
        data_sources := d.data_sources
        fields := d.fields
        success := none
        error_message := none }
  | .error e =>
      { timestamp := now
        location := loc.name
        province := loc.province
        lat := loc.lat
        lon := loc.lon
        data_sources := []
        fields := []
        success := some false
        error_message := some e }

/-- The worker-pool loop of `run_enhanced_soil_crawl` (lines 789-811): one
future per location, each contributing exactly one record to
`collected_data` (the per-future `except` fallback is unreachable here
because `crawlSoilLocation` is total).  `as_completed` yields records in
completion order — some permutation of submission order; the model collects
in submission order and the theorems below state order-independent
properties only. -/
def runCrawlBatch (now : String) (attempt : Loc → Except String SoilData)
    (locs : List Loc) : List SoilRecord :=
  locs.map (crawlSoilLocation now attempt)

/-- The request-body filter of `run_enhanced_soil_crawl` (lines 776-780):
only `provinces` and `limit` are understood. -/
structure SoilFilter where
  provinces : Option (List String)
  limit : Option ℕ

structure SoilBody where
  filter : SoilFilter
  locations : Option (List Loc)

/-- Lines 774-783: start from the configured registry, apply the body's
filter criteria, then — when the body carries an explicit `locations` list —
discard all of that and use the explicit list. -/
def selectSoilLocations (configured : List Loc) (body : SoilBody) :
    List Loc :=
  let locs := configured
  let locs :=
    match body.filter.provinces with
    | some ps => locs.filter fun l => decide (l.province ∈ ps)
    | none => locs
  let locs :=
    match body.filter.limit with
    | some n => locs.take n
    | none => locs
  match body.locations with
  | some ls => ls
  | none => locs

/-- A cache file's content: the `cached_at` timestamp (modelled in hours;
`none` models an entry without the `cached_at` key) and the cached payload. -/
structure CacheEntry where
  cached_at : Option ℚ
  payload : List (String × ℚ)
deriving DecidableEq

/-- `load_cached_data` (lines 154-174).  `entry = none` models a missing or
unreadable cache file.  When `cached_at` is present and the entry is fresh,
the fresh branch returns it; when it is stale, line 168 only logs
"Cache expired" and control falls through to the `return data` on line 171 —
the stale entry is returned all the same, as is an entry without
`cached_at`. -/
def loadCachedData (now maxAgeHours : ℚ) (entry : Option CacheEntry) :
    Option CacheEntry :=
  match entry with
  | none => none
  | some e =>
      match e.cached_at with
      | some t =>
          if now - t < maxAgeHours then
            some e
          else
            some e
      | none => some e

/-- `get_soilgrids_data` (lines 187-192): consult the cache with the one-week
TTL (`max_age_hours=168`); any returned entry short-circuits the function —
the network fetch runs only on a cache miss.  Result: the data returned and
whether the network was called. -/
def getSoilgridsData (now : ℚ) (cache : Option CacheEntry)
    (fetchNet : Unit → Option (List (String × ℚ))) :
    Option (List (String × ℚ)) × Bool :=
  match loadCachedData now 168 cache with
  | some e => (some e.payload, false)
  | none => (fetchNet (), true)

end SoilCrawler

namespace WaterCrawler

/-!
## `src/crawlers/water/water_crawler.py`

`filter_locations_by_criteria` (lines 139-163) and the location selection of
`run_water_crawl` (lines 607-612).
-/

structure Loc where
  name : String
  province : String
  lat : ℚ
  lon : ℚ
  major_river : Option String
deriving DecidableEq

/-- The filter criteria dict.  An absent or empty dict is `none`
(`if not criteria: return locations`). -/
structure Criteria where
  provinces : Option (List String)
  names : Option (List String)
  has_river : Option Bool
  limit : Option ℕ

/-- `filter_locations_by_criteria` (lines 139-163).  The `has_river` branch
keeps locations whose `major_river` is truthy (present and non-empty). -/
def filterLocationsByCriteria (locations : List Loc)
    (criteria : Option Criteria) : List Loc :=
  match criteria with
  | none => locations
  | some c =>
      let f := locations
      let f :=
        match c.provinces with
        | some ps => f.filter fun l => decide (l.province ∈ ps)
        | none => f
      let f :=
        match c.names with
        | some ns => f.filter fun l => decide (l.name ∈ ns)
        | none => f
      let f :=
        match c.has_river with
        | some true =>
            f.filter fun l =>
              match l.major_river with
              | some s => decide (s ≠ "")
              | none => false
        | _ => f
      match c.limit with
      | some n => f.take n
      | none => f

/-- Lines 607-612 of `run_water_crawl`: filter the configured registry, then
let an explicit `locations` list in the body override the result. -/
def runWaterCrawlSelect (configured : List Loc)
    (bodyFilter : Option Criteria) (bodyLocations : Option (List Loc)) :
    List Loc :=
  let locs := filterLocationsByCriteria configured bodyFilter
  match bodyLocations with
  | some ls => ls
  | none => locs

end WaterCrawler

namespace Load

/-!
## The load phases

`air_cleaner_api` (air_cleaner.py lines 136-167) and `clean_water_data`
(water_cleaner.py lines 341-351), modelled as traces of store events.
Store availability is the single flag `dbUp`; write failures of other kinds
surface through the same generic statuses and are not distinguished.
-/

inductive Mode
  | replace
  | append
deriving DecidableEq

structure WriteOp where
  table : String
  mode : Mode
deriving DecidableEq

/-- An observable store interaction: the `SELECT 1` connectivity probe, or a
`to_sql` write attempt. -/
inductive Event
  | probe
  | write (op : WriteOp)
deriving DecidableEq

inductive LoadStatus
  | ok
  /-- air_cleaner.py lines 152-155: the distinct
  `"Database connection failed: ..."` error returned when the probe fails. -/
  | dbConnectionFailed
  /-- air_cleaner.py lines 162-167: the generic
  `"Error inserting to PostgreSQL: ..."` error. -/
  | insertError
  /-- water_cleaner.py lines 397-399: the generic
  `HTTPException(status_code=500, detail=str(e))`. -/
  | httpError
deriving DecidableEq

/-- Attempt a list of writes in order against a store that is up or down:
when the store is down the first attempt raises and the rest are never
tried.  Returns the attempted events and whether all succeeded. -/
def attemptWrites (dbUp : Bool) (ops : List WriteOp) : List Event × Bool :=
  if dbUp then (ops.map Event.write, true)
  else
    match ops with
    | [] => ([], true)
    | o :: _ => ([Event.write o], false)

/-- air_cleaner.py lines 157-160: three dimension replaces, then the fact
append. -/
def airWriteOps : List WriteOp :=
  [⟨"City", .replace⟩, ⟨"Source", .replace⟩,
   ⟨"WeatherCondition", .replace⟩, ⟨"AirQualityRecord", .append⟩]

/-- The load phase of `air_cleaner_api` (lines 136-167): probe with
`SELECT 1` first; on probe failure return the distinct connectivity error
without attempting any write; otherwise run the writes. -/
def airCleanerLoad (dbUp : Bool) : List Event × LoadStatus :=
  if dbUp then
    let w := attemptWrites dbUp airWriteOps
    (Event.probe :: w.1, if w.2 then .ok else .insertError)
  else ([Event.probe], .dbConnectionFailed)

/-- water_cleaner.py lines 344-350: six dimension replaces, then the fact
append. -/
def waterWriteOps : List WriteOp :=
  [⟨"water_province", .replace⟩, ⟨"water_region", .replace⟩,
   ⟨"water_major_river", .replace⟩, ⟨"water_quality_category", .replace⟩,
   ⟨"water_location", .replace⟩, ⟨"water_source_type", .replace⟩,
   ⟨"water_record", .append⟩]

/-- The load phase of `clean_water_data` (lines 341-351): no connectivity
probe — the writes are attempted directly, and any failure surfaces as the
generic `HTTPException` 500. -/
def waterCleanerLoad (dbUp : Bool) : List Event × LoadStatus :=
  let w := attemptWrites dbUp waterWriteOps
  (w.1, if w.2 then .ok else .httpError)

end Load

namespace Inputs

/-! ## Concrete inputs used by the counterexamples and witnesses -/

/-- An air row with the given city, one numeric cell set, and every other
cell missing. -/
def airRowNum (cityv : String) (c₀ : AirCleaner.NumCol) (v : Option ℚ) :
    AirCleaner.AirRow :=
  { num := fun c => if c = c₀ then v else none
    city := some cityv
    province := none
    city_source := none
    source := none
    status := none
    weather_condition := none
    timestamp := none
    latitude := none
    longitude := none
    uv_index := none
    aqi_cn := none }

/-- The batch of the clipping+imputation scenario: AQI column
`[5, 55, 600, null, 120]` (distinct cities keep the five records distinct). -/
def aqiBatch : List AirCleaner.AirRow :=
  [airRowNum "a" .aqi (some 5), airRowNum "b" .aqi (some 55),
   airRowNum "c" .aqi (some 600), airRowNum "d" .aqi none,
   airRowNum "e" .aqi (some 120)]

/-- A two-record batch with AQI values `10` and `500`, both inside the
documented bound. -/
def capBatch : List AirCleaner.AirRow :=
  [airRowNum "a" .aqi (some 10), airRowNum "b" .aqi (some 500)]

/-- A one-record batch whose humidity is `150`, far above the documented
bound `[0, 100]`. -/
def humidityBatch : List AirCleaner.AirRow :=
  [airRowNum "a" .humidity (some 150)]

/-- An air row with city `"hanoi"`, province `"h"` and the given latitude. -/
def cityRow (latv : ℚ) : AirCleaner.AirRow :=
  { num := fun _ => none
    city := some "hanoi"
    province := some "h"
    city_source := none
    source := none
    status := none
    weather_condition := none
    timestamp := none
    latitude := some latv
    longitude := none
    uv_index := none
    aqi_cn := none }

/-- Two records for the same city/province natural key at different
coordinates. -/
def cityDupBatch : List AirCleaner.AirRow := [cityRow 10, cityRow 20]

/-- An air row already in fully-cleaned form: numeric and coordinate cells
null, categorical cells normalized, canonical timestamp. -/
def fixedRow : AirCleaner.AirRow :=
  { num := fun _ => none
    city := some "hanoi"
    province := some "hanoi"
    city_source := some "iqair"
    source := some "openweather"
    status := some "ok"
    weather_condition := some "cloudy"
    timestamp := some "2024-01-02 03:04:05"
    latitude := none
    longitude := none
    uv_index := none
    aqi_cn := none }

def fixedBatch : List AirCleaner.AirRow := [fixedRow]

/-- A successful water reading with coordinates, a canonical timestamp, and
the provenance columns still present. -/
def waterRow1 : WaterCleaner.WaterRow :=
  { num := fun c =>
      match c with
      | .lat => some 10
      | .lon => some 105
      | _ => none
    str := fun c =>
      match c with
      | .location => some "hanoi"
      | .province => some "hanoi"
      | _ => none
    timestamp := some (.raw "2024-01-02 03:04:05")
    crawl_time := none
    success := some true
    error_code := some "E42"
    error_message := some "boom" }

/-- A failed water reading (dropped by the success filter). -/
def waterRowFail : WaterCleaner.WaterRow :=
  { waterRow1 with success := some false, error_message := some "timeout" }

def waterBatch1 : List WaterCleaner.WaterRow := [waterRow1, waterRowFail]

/-- A successful climate reading (humidity inside `[0, 100]` so the row
survives the humidity filter). -/
def climateRow1 : ClimateCleaner.ClimateRow :=
  { num := fun c =>
      match c with
      | .lat => some 10
      | .lon => some 105
      | .temperature => some 25
      | .humidity => some 50
      | _ => none
    str := fun c =>
      match c with
      | .location => some "hanoi"
      | .province => some "hanoi"
      | _ => none
    timestamp := some (.raw "2024-01-02 03:04:05")
    sunrise := none
    sunset := none
    crawl_time := none
    success := some true
    error_code := some "E7"
    error_message := some "bad gateway" }

/-- A failed climate reading. -/
def climateRowFail : ClimateCleaner.ClimateRow :=
  { climateRow1 with success := none, error_message := some "timeout" }

def climateBatch1 : List ClimateCleaner.ClimateRow :=
  [climateRow1, climateRowFail]

/-- A constant unit-draw stream. -/
def halfStream : ℕ → ℚ := fun _ => 1 / 2

/-- A constant unit-draw table for the escalation fills. -/
def halfDraw : ℕ → WaterCleaner.WNum → ℚ := fun _ _ => 1 / 2

/-- One registry location for the soil crawl. -/
def soilLoc1 : SoilCrawler.Loc :=
  { name := "Hanoi", province := "Hanoi", lat := 21, lon := 105 }

/-- A provider oracle that always fails. -/
def failAttempt : SoilCrawler.Loc → Except String SoilCrawler.SoilData :=
  fun _ => .error "boom"

/-- A soil cache entry written at hour `0`. -/
def staleEntry : SoilCrawler.CacheEntry :=
  { cached_at := some 0, payload := [("clay", 30)] }

/-- The row that `clean_data` produces from `humidityBatch`: the categorical
columns are `"unknown"`-filled, and the humidity `150` survives — the air
cleaner enforces no `[0, 100]` humidity bound. -/
def cleanedHumidityRow : AirCleaner.AirRow :=
  { num := fun c => if c = AirCleaner.NumCol.humidity then some 150 else none
    city := some "a"
    province := some "unknown"
    city_source := some "unknown"
    source := some "unknown"
    status := some "unknown"
    weather_condition := some "unknown"
    timestamp := none
    latitude := none
    longitude := none
    uv_index := none
    aqi_cn := none }

/-- The fact row that `transform_data` produces for the first record of
`cityDupBatch`: both records share the natural key `("hanoi", "h")`, whose
dict lookup resolves to the *last* matching city row, id `2`. -/
def cityFact : AirCleaner.AirFact :=
  { timestamp := none
    city_id := some 2
    source_id := some 1
    condition_id := some 1
    num := fun _ => none
    status := none
    record_id := 1 }

end Inputs

/-! ## Support lemmas -/

/-- In `l.zip (l.map f)` the second component of every pair is `f` of the
first. -/
theorem zip_map_snd {α β : Type _} (f : α → β) :
    ∀ {l : List α} {p : α × β}, p ∈ l.zip (l.map f) → p.2 = f p.1 := by
  intro l
  induction l with
  | nil => intro p h; simp [List.zip] at h
  | cons x xs ih =>
      intro p h
      simp only [List.map_cons, List.zip_cons_cons, List.mem_cons] at h
      rcases h with h | h
      · simp [h]
      · exact ih h

/-- Rows of `withIdsFrom n l` are rows of `l`. -/
theorem mem_withIdsFrom {α : Type _} {p : α × ℕ} :
    ∀ {n : ℕ} {l : List α}, p ∈ withIdsFrom n l → p.1 ∈ l := by
  intro n l
  induction l generalizing n with
  | nil => intro h; simp [withIdsFrom] at h
  | cons x xs ih =>
      intro h
      simp only [withIdsFrom, List.mem_cons] at h
      rcases h with h | h
      · simp [h]
      · exact List.mem_cons_of_mem x (ih h)

/-- Keys of rows kept by `distinctByAux` were not previously seen. -/
theorem key_not_seen_of_mem_distinctByAux {α κ : Type _} [DecidableEq κ]
    {key : α → κ} :
    ∀ {l : List α} {seen : List κ} {y : α},
      y ∈ distinctByAux key seen l → key y ∉ seen := by
  intro l
  induction l with
  | nil => intro seen y h; simp [distinctByAux] at h
  | cons x xs ih =>
      intro seen y h
      simp only [distinctByAux] at h
      by_cases hx : key x ∈ seen
      · rw [if_pos hx] at h
        exact ih h
      · rw [if_neg hx] at h
        rcases List.mem_cons.mp h with h | h
        · subst h; exact hx
        · intro hy
          exact ih h (List.mem_cons_of_mem _ hy)

/-- The kept rows have pairwise-distinct keys. -/
theorem nodup_keys_distinctByAux {α κ : Type _} [DecidableEq κ]
    {key : α → κ} :
    ∀ {l : List α} {seen : List κ},
      ((distinctByAux key seen l).map key).Nodup := by
  intro l
  induction l with
  | nil => intro seen; simp [distinctByAux]
  | cons x xs ih =>
      intro seen
      simp only [distinctByAux]
      by_cases hx : key x ∈ seen
      · rw [if_pos hx]
        exact ih
      · rw [if_neg hx]
        simp only [List.map_cons, List.nodup_cons]
        refine ⟨fun hmem => ?_, ih⟩
        obtain ⟨z, hz, he⟩ := List.mem_map.mp hmem
        exact key_not_seen_of_mem_distinctByAux hz
          (by rw [he]; exact List.mem_cons_self _ _)

/-- Completeness: a key present in the scanned list and not yet seen appears
among the kept rows' keys. -/
theorem mem_keys_distinctByAux {α κ : Type _} [DecidableEq κ] {key : α → κ} :
    ∀ {l : List α} {seen : List κ} {y : α},
      y ∈ l → key y ∉ seen →
      key y ∈ (distinctByAux key seen l).map key := by
  intro l
  induction l with
  | nil => intro seen y h; simp at h
  | cons x xs ih =>
      intro seen y hy hk
      simp only [distinctByAux]
      by_cases hx : key x ∈ seen
      · rw [if_pos hx]
        rcases List.mem_cons.mp hy with rfl | hy'
        · exact absurd hx hk
        · exact ih hy' hk
      · rw [if_neg hx]
        simp only [List.map_cons, List.mem_cons]
        by_cases he : key y = key x
        · exact Or.inl he
        · rcases List.mem_cons.mp hy with rfl | hy'
          · exact absurd rfl he
          · exact Or.inr (ih hy' (by
              intro hmem
              rcases List.mem_cons.mp hmem with h | h
              · exact he h
              · exact hk h))

/-- First-seen order: among the kept rows, earlier rows have strictly
earlier first occurrences in the scanned list. -/
theorem pairwise_indexOf_distinctFirstSeen {α : Type _} [DecidableEq α] :
    ∀ (l : List α) (seen : List α),
      (distinctByAux id seen l).Pairwise
        (fun a b => l.indexOf a < l.indexOf b) := by
  intro l
  induction l with
  | nil => intro seen; simp [distinctByAux]
  | cons x xs ih =>
      intro seen
      simp only [distinctByAux]
      by_cases hx : (id x : α) ∈ seen
      · rw [if_pos hx]
        refine List.Pairwise.imp_of_mem ?_ (ih seen)
        intro a b ha hb hr
        have hax : a ≠ x := fun h =>
          key_not_seen_of_mem_distinctByAux ha (h ▸ hx)
        have hbx : b ≠ x := fun h =>
          key_not_seen_of_mem_distinctByAux hb (h ▸ hx)
        rw [List.indexOf_cons_ne xs (Ne.symm hax),
          List.indexOf_cons_ne xs (Ne.symm hbx)]
        exact Nat.succ_lt_succ hr
      · rw [if_neg hx]
        refine List.pairwise_cons.mpr ⟨?_, ?_⟩
        · intro b hb
          have hbx : b ≠ x := fun h =>
            key_not_seen_of_mem_distinctByAux hb
              (h ▸ List.mem_cons_self _ _)
          rw [List.indexOf_cons_self, List.indexOf_cons_ne xs (Ne.symm hbx)]
          exact Nat.succ_pos _
        · refine List.Pairwise.imp_of_mem ?_ (ih (id x :: seen))
          intro a b ha hb hr
          have hax : a ≠ x := fun h =>
            key_not_seen_of_mem_distinctByAux ha
              (h ▸ List.mem_cons_self _ _)
          have hbx : b ≠ x := fun h =>
            key_not_seen_of_mem_distinctByAux hb
              (h ▸ List.mem_cons_self _ _)
          rw [List.indexOf_cons_ne xs (Ne.symm hax),
            List.indexOf_cons_ne xs (Ne.symm hbx)]
          exact Nat.succ_lt_succ hr

theorem withIdsFrom_map_fst {α : Type _} :
    ∀ (n : ℕ) (l : List α), (withIdsFrom n l).map Prod.fst = l := by
  intro n l
  induction l generalizing n with
  | nil => simp [withIdsFrom]
  | cons x xs ih => simp [withIdsFrom, ih]

theorem withIdsFrom_map_snd {α : Type _} :
    ∀ (n : ℕ) (l : List α),
      (withIdsFrom n l).map Prod.snd = List.range' n l.length := by
  intro n l
  induction l generalizing n with
  | nil => simp [withIdsFrom]
  | cons x xs ih => simp [withIdsFrom, List.range'_succ, ih]

theorem withIdsFrom_length {α : Type _} :
    ∀ (n : ℕ) (l : List α), (withIdsFrom n l).length = l.length := by
  intro n l
  induction l generalizing n with
  | nil => simp [withIdsFrom]
  | cons x xs ih => simp [withIdsFrom, ih]

/-- `mkDim` satisfies the surrogate-key assignment discipline. -/
theorem mkDim_dimAssign {α : Type _} [DecidableEq α] (keys : List α) :
    DimAssign keys (mkDim keys) := by
  have hfst : (mkDim keys).map Prod.fst = distinctFirstSeen keys :=
    withIdsFrom_map_fst 1 _
  refine ⟨?_, ?_, ?_, ?_⟩
  · rw [mkDim, withIdsFrom_map_snd, withIdsFrom_length]
  · rw [hfst]
    have h := @nodup_keys_distinctByAux α α _ id keys []
    simpa [distinctFirstSeen] using h
  · intro x
    rw [hfst]
    constructor
    · exact fun h => mem_of_mem_distinctFirstSeen h
    · intro h
      have := @mem_keys_distinctByAux α α _ id keys [] x h (by simp)
      simpa [distinctFirstSeen] using this
  · rw [hfst]
    exact pairwise_indexOf_distinctFirstSeen keys []

/-- Batteries' `Rat.floor` is Mathlib's `⌊·⌋` on `ℚ`. -/
theorem ratFloor_eq (y : ℚ) : y.floor = ⌊y⌋ := rfl

theorem map_eq_self {α : Type _} {f : α → α} :
    ∀ {l : List α}, (∀ x ∈ l, f x = x) → l.map f = l := by
  intro l
  induction l with
  | nil => intro _; rfl
  | cons x xs ih =>
      intro h
      simp only [List.map_cons]
      rw [h x (List.mem_cons_self x xs), ih fun y hy =>
        h y (List.mem_cons_of_mem x hy)]

/-- A sorted-list element read through `getD` inside bounds is a member. -/
theorem getD_mem_of_lt {l : List ℚ} {i : ℕ} (h : i < l.length) :
    l.getD i 0 ∈ l := by
  rw [List.getD_eq_getElem l 0 h]
  exact List.getElem_mem h

/-- The median of a batch of values inside `[lo, hi]` is inside `[lo, hi]`. -/
theorem medianQ_bounds {lo hi : ℚ} {xs : List ℚ}
    (hb : ∀ x ∈ xs, lo ≤ x ∧ x ≤ hi) {m : ℚ}
    (hm : medianQ xs = some m) : lo ≤ m ∧ m ≤ hi := by
  have hmem : ∀ x ∈ sortQ xs, lo ≤ x ∧ x ≤ hi := fun x hx =>
    hb x (mem_sortQ hx)
  simp only [medianQ] at hm
  split at hm
  · exact absurd hm (by simp)
  · split at hm
    case isTrue h0 _ =>
        have hlt : (sortQ xs).length / 2 < (sortQ xs).length :=
          Nat.div_lt_self (Nat.pos_of_ne_zero h0) (by norm_num)
        obtain rfl := Option.some.inj hm
        exact hmem _ (getD_mem_of_lt hlt)
    case isFalse h0 _ =>
        have hlt : (sortQ xs).length / 2 < (sortQ xs).length :=
          Nat.div_lt_self (Nat.pos_of_ne_zero h0) (by norm_num)
        have hlt' : (sortQ xs).length / 2 - 1 < (sortQ xs).length :=
          lt_of_le_of_lt (Nat.sub_le _ _) hlt
        have h₁ := hmem _ (getD_mem_of_lt hlt')
        have h₂ := hmem _ (getD_mem_of_lt hlt)
        obtain rfl := Option.some.inj hm
        constructor <;> [linarith [h₁.1, h₂.1]; linarith [h₁.2, h₂.2]]

/-- A linear-interpolation quantile (for `0 ≤ q ≤ 1`) of values inside
`[lo, hi]` is inside `[lo, hi]`. -/
theorem quantileQ_bounds {q lo hi : ℚ} (hq0 : 0 ≤ q)
    {xs : List ℚ} (hb : ∀ x ∈ xs, lo ≤ x ∧ x ≤ hi) {v : ℚ}
    (hv : quantileQ q xs = some v) : lo ≤ v ∧ v ≤ hi := by
  have hmem : ∀ x ∈ sortQ xs, lo ≤ x ∧ x ≤ hi := fun x hx =>
    hb x (mem_sortQ hx)
  simp only [quantileQ, ratFloor_eq] at hv
  split at hv
  · exact absurd hv (by simp)
  case isFalse h0 =>
    have hn : 0 < (sortQ xs).length := Nat.pos_of_ne_zero h0
    set n := (sortQ xs).length with hn_def
    set h : ℚ := ((n - 1 : ℕ) : ℚ) * q with hh_def
    have hh0 : 0 ≤ h := mul_nonneg (by positivity) hq0
    have hfl : ((⌊h⌋.toNat : ℚ)) = ((⌊h⌋ : ℤ) : ℚ) := by
      exact_mod_cast Int.toNat_of_nonneg (Int.floor_nonneg.mpr hh0)
    have hfrac0 : 0 ≤ h - (⌊h⌋.toNat : ℚ) := by
      rw [hfl]
      have := Int.floor_le h
      linarith
    have hfrac1 : h - (⌊h⌋.toNat : ℚ) < 1 := by
      rw [hfl]
      have := Int.lt_floor_add_one h
      linarith
    split at hv
    case isTrue hlt =>
        have hi1 : ⌊h⌋.toNat < n := Nat.lt_of_succ_lt hlt
        have ha := hmem _ (getD_mem_of_lt hi1)
        have hb' := hmem _ (getD_mem_of_lt hlt)
        set a := (sortQ xs).getD ⌊h⌋.toNat 0
        set b := (sortQ xs).getD (⌊h⌋.toNat + 1) 0
        obtain rfl := Option.some.inj hv
        constructor
        · have t1 : 0 ≤ (1 - (h - (⌊h⌋.toNat : ℚ))) * (a - lo) :=
            mul_nonneg (by linarith) (by linarith [ha.1])
          have t2 : 0 ≤ (h - (⌊h⌋.toNat : ℚ)) * (b - lo) :=
            mul_nonneg hfrac0 (by linarith [hb'.1])
          nlinarith [t1, t2]
        · have t1 : 0 ≤ (1 - (h - (⌊h⌋.toNat : ℚ))) * (hi - a) :=
            mul_nonneg (by linarith) (by linarith [ha.2])
          have t2 : 0 ≤ (h - (⌊h⌋.toNat : ℚ)) * (hi - b) :=
            mul_nonneg hfrac0 (by linarith [hb'.2])
          nlinarith [t1, t2]
    case isFalse =>
        have hlt : n - 1 < n := Nat.sub_lt hn (by norm_num)
        obtain rfl := Option.some.inj hv
        exact hmem _ (getD_mem_of_lt hlt)

/-- `roundHalfEven` respects integer upper bounds. -/
theorem roundHalfEven_le {y : ℚ} {m : ℤ} (h : y ≤ m) :
    roundHalfEven y ≤ m := by
  unfold roundHalfEven
  simp only [ratFloor_eq]
  have hfl : ⌊y⌋ ≤ m := by
    have := Int.floor_le_floor h
    simpa using this
  split
  · exact hfl
  case isFalse h1 =>
    have hr : 1 / 2 ≤ y - ⌊y⌋ := by linarith [not_lt.mp h1]
    have hflq : ((⌊y⌋ : ℤ) : ℚ) ≤ y := Int.floor_le y
    have : ((⌊y⌋ : ℤ) : ℚ) < m := by linarith
    have hlt : ⌊y⌋ < m := by exact_mod_cast this
    split
    · exact hlt
    · split
      · exact hfl
      · exact hlt

/-- `roundHalfEven` respects integer lower bounds. -/
theorem le_roundHalfEven {y : ℚ} {m : ℤ} (h : (m : ℚ) ≤ y) :
    m ≤ roundHalfEven y := by
  unfold roundHalfEven
  simp only [ratFloor_eq]
  have hfl : m ≤ ⌊y⌋ := Int.le_floor.mpr h
  split
  · exact hfl
  · split
    · exact le_trans hfl (by omega)
    · split
      · exact hfl
      · exact le_trans hfl (by omega)

/-- `round2` keeps values between integer bounds. -/
theorem round2_bounds {y : ℚ} {a b : ℤ} (h1 : (a : ℚ) ≤ y)
    (h2 : y ≤ (b : ℚ)) : (a : ℚ) ≤ round2 y ∧ round2 y ≤ (b : ℚ) := by
  have hlo : 100 * a ≤ roundHalfEven (100 * y) := by
    apply le_roundHalfEven
    push_cast
    linarith
  have hhi : roundHalfEven (100 * y) ≤ 100 * b := by
    apply roundHalfEven_le
    push_cast
    linarith
  have hloq : ((100 * a : ℤ) : ℚ) ≤ (roundHalfEven (100 * y) : ℚ) := by
    exact_mod_cast hlo
  have hhiq : ((roundHalfEven (100 * y) : ℤ) : ℚ) ≤ ((100 * b : ℤ) : ℚ) := by
    exact_mod_cast hhi
  unfold round2
  push_cast at hloq hhiq
  constructor <;> linarith

/-- Bounds on every present cell of a column give bounds on `colVals`. -/
theorem AirCleaner.colVals_bounds {lo hi : ℚ} {l : List AirCleaner.AirRow}
    {c : AirCleaner.NumCol}
    (h : ∀ r ∈ l, ∀ x, r.num c = some x → lo ≤ x ∧ x ≤ hi) :
    ∀ x ∈ AirCleaner.colVals l c, lo ≤ x ∧ x ≤ hi := by
  intro x hx
  obtain ⟨r, hr, he⟩ := List.mem_filterMap.mp hx
  exact h r hr x he

/-- After the AQI bound-nulling step every present AQI is in `[10, 500]`. -/
theorem AirCleaner.aqi_bounds_after_null {l : List AirCleaner.AirRow} :
    ∀ r ∈ AirCleaner.aqiBoundNull l, ∀ x,
      r.num AirCleaner.NumCol.aqi = some x → 10 ≤ x ∧ x ≤ 500 := by
  intro r hr x hx
  obtain ⟨r₀, _, rfl⟩ := List.mem_map.mp hr
  simp only [if_pos rfl] at hx
  obtain ⟨y, hy, hif⟩ := Option.bind_eq_some.mp hx
  split at hif
  · exact absurd hif (by simp)
  case isFalse hcond =>
    push_neg at hcond
    obtain rfl := Option.some.inj hif
    exact hcond

/-- After the AQI median refill every present AQI is still in `[10, 500]`. -/
theorem AirCleaner.aqi_bounds_after_fill (l : List AirCleaner.AirRow) :
    ∀ r ∈ AirCleaner.aqiFillMedian (AirCleaner.aqiBoundNull l), ∀ x,
      r.num AirCleaner.NumCol.aqi = some x → 10 ≤ x ∧ x ≤ 500 := by
  intro r hr x hx
  obtain ⟨r₀, hr₀, rfl⟩ := List.mem_map.mp hr
  simp only [if_pos rfl] at hx
  cases hw : r₀.num AirCleaner.NumCol.aqi with
  | some w =>
      rw [hw] at hx
      obtain rfl := Option.some.inj hx
      exact AirCleaner.aqi_bounds_after_null r₀ hr₀ w hw
  | none =>
      rw [hw] at hx
      exact medianQ_bounds
        (AirCleaner.colVals_bounds
          (fun r hr => AirCleaner.aqi_bounds_after_null r hr))
        hx

/-- The clip-and-round step keeps every present AQI in `[10, 500]`. -/
theorem AirCleaner.aqi_bounds_after_clip {l : List AirCleaner.AirRow}
    (hl : ∀ r ∈ l, ∀ x,
      r.num AirCleaner.NumCol.aqi = some x → 10 ≤ x ∧ x ≤ 500) :
    ∀ r ∈ AirCleaner.clipRoundAll l, ∀ x,
      r.num AirCleaner.NumCol.aqi = some x → 10 ≤ x ∧ x ≤ 500 := by
  intro r hr x hx
  obtain ⟨r₀, hr₀, rfl⟩ := List.mem_map.mp hr
  simp only [] at hx
  obtain ⟨w, hw, he⟩ := Option.map_eq_some'.mp hx
  obtain ⟨hw1, hw2⟩ := hl r₀ hr₀ w hw
  subst he
  have hclip : 10 ≤ clipQ (some 0)
        (quantileQ (999 / 1000)
          (AirCleaner.colVals l AirCleaner.NumCol.aqi)) w ∧
      clipQ (some 0)
        (quantileQ (999 / 1000)
          (AirCleaner.colVals l AirCleaner.NumCol.aqi)) w ≤ 500 := by
    cases hq : quantileQ (999 / 1000)
        (AirCleaner.colVals l AirCleaner.NumCol.aqi) with
    | none =>
        simp only [clipQ, hq]
        rw [max_eq_left (by linarith)]
        exact ⟨hw1, hw2⟩
    | some v =>
        obtain ⟨hv1, hv2⟩ := quantileQ_bounds (by norm_num)
          (AirCleaner.colVals_bounds hl) hq
        simp only [clipQ, hq]
        rw [max_eq_left (by linarith)]
        exact ⟨le_min hw1 hv1, le_trans (min_le_right _ _) hv2⟩
  have hrnd := @round2_bounds (clipQ (some 0)
      (quantileQ (999 / 1000)
        (AirCleaner.colVals l AirCleaner.NumCol.aqi)) w) 10 500
    (by exact_mod_cast hclip.1) (by exact_mod_cast hclip.2)
  exact ⟨by exact_mod_cast hrnd.1, by exact_mod_cast hrnd.2⟩

/-- Rows of a map that keeps `num` have the `num` of some source row. -/
theorem AirCleaner.mapNum {f : AirCleaner.AirRow → AirCleaner.AirRow}
    {l : List AirCleaner.AirRow} {r : AirCleaner.AirRow} (h : r ∈ l.map f)
    (hf : ∀ x, (f x).num = x.num) :
    ∃ r₀ ∈ l, r.num = r₀.num := by
  obtain ⟨a, ha, rfl⟩ := List.mem_map.mp h
  exact ⟨a, ha, hf a⟩

theorem AirCleaner.lonStep_num {l : List AirCleaner.AirRow}
    {r : AirCleaner.AirRow} (h : r ∈ AirCleaner.lonStep l) :
    ∃ r₀ ∈ l, r.num = r₀.num := by
  unfold AirCleaner.lonStep at h
  obtain ⟨r₁, h₁, e₁⟩ :=
    AirCleaner.mapNum h (fun x => by cases hx : x.city <;> simp [hx])
  obtain ⟨r₂, h₂, e₂⟩ := AirCleaner.mapNum h₁ (fun x => rfl)
  exact ⟨r₂, h₂, e₁.trans e₂⟩

theorem AirCleaner.latStep_num {l : List AirCleaner.AirRow}
    {r : AirCleaner.AirRow} (h : r ∈ AirCleaner.latStep l) :
    ∃ r₀ ∈ l, r.num = r₀.num := by
  unfold AirCleaner.latStep at h
  obtain ⟨r₁, h₁, e₁⟩ :=
    AirCleaner.mapNum h (fun x => by cases hx : x.city <;> simp [hx])
  obtain ⟨r₂, h₂, e₂⟩ := AirCleaner.mapNum h₁ (fun x => rfl)
  exact ⟨r₂, h₂, e₁.trans e₂⟩

/-- The cleaning steps after the numeric processing do not change the
numeric columns of any surviving row. -/
theorem AirCleaner.num_transport {l : List AirCleaner.AirRow}
    {r : AirCleaner.AirRow}
    (h : r ∈ AirCleaner.dropExtraCols (AirCleaner.latStep
      (AirCleaner.lonStep (distinctFirstSeen (AirCleaner.normCategoricals
        (AirCleaner.processWeather (AirCleaner.processTimestamps l))))))) :
    ∃ r₀ ∈ l, r.num = r₀.num := by
  unfold AirCleaner.dropExtraCols at h
  obtain ⟨r₁, h₁, e₁⟩ := AirCleaner.mapNum h (fun x => rfl)
  obtain ⟨r₂, h₂, e₂⟩ := AirCleaner.latStep_num h₁
  obtain ⟨r₃, h₃, e₃⟩ := AirCleaner.lonStep_num h₂
  have h₄ := mem_of_mem_distinctFirstSeen h₃
  unfold AirCleaner.normCategoricals at h₄
  obtain ⟨r₅, h₅, e₅⟩ := AirCleaner.mapNum h₄ (fun x => rfl)
  unfold AirCleaner.processWeather at h₅
  obtain ⟨r₆, h₆, e₆⟩ := AirCleaner.mapNum h₅ (fun x => rfl)
  unfold AirCleaner.processTimestamps at h₆
  obtain ⟨r₇, h₇, e₇⟩ := AirCleaner.mapNum h₆ (fun x => rfl)
  exact ⟨r₇, h₇,
    ((((e₁.trans e₂).trans e₃).trans e₅).trans e₆).trans e₇⟩

/-- A `clip` with ordered bounds lands inside them. -/
theorem clipQ_mem {lo hi x : ℚ} (h : lo ≤ hi) :
    lo ≤ clipQ (some lo) (some hi) x ∧ clipQ (some lo) (some hi) x ≤ hi := by
  unfold clipQ
  exact ⟨le_min (le_max_right x lo) h, min_le_right _ _⟩

/-- `random.uniform a b` lands in `[a, b]`. -/
theorem uniform_mem (a b u : ℚ) (hab : a ≤ b) (h0 : 0 ≤ u) (h1 : u ≤ 1) :
    a ≤ uniform a b u ∧ uniform a b u ≤ b := by
  unfold uniform
  constructor <;> nlinarith

theorem WaterCleaner.clipBounds_le (c : WaterCleaner.WNum) :
    (WaterCleaner.clipBounds c).1 ≤ (WaterCleaner.clipBounds c).2 := by
  cases c <;> norm_num [WaterCleaner.clipBounds]

theorem WaterCleaner.floatDefault_bounds {c : WaterCleaner.WNum} {d : ℚ}
    (h : WaterCleaner.floatDefault c = some d) :
    (WaterCleaner.clipBounds c).1 ≤ d ∧ d ≤ (WaterCleaner.clipBounds c).2 := by
  cases c <;> simp [WaterCleaner.floatDefault] at h <;>
    simp [WaterCleaner.clipBounds, ← h]

/-- A present cell produced by the float-column processing lies within the
column's clip range. -/
theorem WaterCleaner.floatCell_bounds {c : WaterCleaner.WNum} {v : Option ℚ}
    {x : ℚ} (h : WaterCleaner.floatCell c v = some x) :
    (WaterCleaner.clipBounds c).1 ≤ x ∧ x ≤ (WaterCleaner.clipBounds c).2 := by
  unfold WaterCleaner.floatCell at h
  cases v with
  | none =>
      simp only [Option.map_none', fillCell] at h
      cases hd : WaterCleaner.floatDefault c with
      | none => rw [hd] at h; exact absurd h (by simp)
      | some d =>
          rw [hd] at h
          simp only [Option.some_bind, jsonSafe] at h
          split at h
          · obtain rfl := Option.some.inj h
            exact WaterCleaner.floatDefault_bounds hd
          · exact absurd h (by simp)
  | some w =>
      simp only [Option.map_some', fillCell, Option.some_bind, jsonSafe] at h
      split at h
      · obtain rfl := Option.some.inj h
        exact clipQ_mem (WaterCleaner.clipBounds_le c)
      · exact absurd h (by simp)

/-- After the float-column step every row satisfies the bounds
discipline. -/
theorem WaterCleaner.floatStep_wok {l : List WaterCleaner.WaterRow} :
    ∀ r ∈ WaterCleaner.floatStep l, WaterCleaner.WOK r := by
  intro r hr c x hx
  obtain ⟨r₀, _, rfl⟩ := List.mem_map.mp hr
  exact WaterCleaner.floatCell_bounds hx

/-- The string and timestamp steps keep `num`. -/
theorem WaterCleaner.midNum {l : List WaterCleaner.WaterRow}
    {r : WaterCleaner.WaterRow}
    (h : r ∈ WaterCleaner.tsFilter
      (WaterCleaner.tsStep (WaterCleaner.strStep l))) :
    ∃ r₀ ∈ l, r.num = r₀.num := by
  have h₁ := List.mem_of_mem_filter h
  obtain ⟨r₂, h₂, rfl⟩ := List.mem_map.mp h₁
  obtain ⟨r₃, h₃, rfl⟩ := List.mem_map.mp h₂
  exact ⟨r₃, h₃, rfl⟩

theorem WaterCleaner.simValue_bounds {u : ℚ} (h0 : 0 ≤ u) (h1 : u ≤ 1)
    (c : WaterCleaner.WNum) :
    (WaterCleaner.clipBounds c).1 ≤ WaterCleaner.simValue u c ∧
      WaterCleaner.simValue u c ≤ (WaterCleaner.clipBounds c).2 := by
  cases c <;>
    simp only [WaterCleaner.simValue, WaterCleaner.clipBounds, uniform] <;>
    constructor <;> nlinarith

/-- The positional fill step keeps the bounds discipline (the random
coordinate fills land in `[8, 23] × [102, 110]`, inside the clip ranges). -/
theorem WaterCleaner.fillStep_wok {latD lonD : ℕ → ℚ} {now : String}
    {l : List WaterCleaner.WaterRow}
    (hlat : ∀ i, 0 ≤ latD i ∧ latD i ≤ 1)
    (hlon : ∀ i, 0 ≤ lonD i ∧ lonD i ≤ 1)
    (hl : ∀ r ∈ l, WaterCleaner.WOK r) :
    ∀ r ∈ WaterCleaner.fillStep latD lonD now l, WaterCleaner.WOK r := by
  intro r hr c x hx
  obtain ⟨⟨r₀, i⟩, hp, rfl⟩ := List.mem_map.mp hr
  have h0 := hl r₀ (mem_withIdsFrom hp)
  cases c with
  | lat =>
      have hx' : fillCell (r₀.num WaterCleaner.WNum.lat)
          (some (uniform 8 23 (latD i))) = some x := hx
      cases hw : r₀.num WaterCleaner.WNum.lat with
      | some w =>
          rw [hw] at hx'
          obtain rfl := Option.some.inj hx'
          exact h0 _ _ hw
      | none =>
          rw [hw] at hx'
          simp only [fillCell] at hx'
          obtain rfl := Option.some.inj hx'
          obtain ⟨hu1, hu2⟩ := uniform_mem 8 23 (latD i) (by norm_num)
            (hlat i).1 (hlat i).2
          constructor
          · show (-180 : ℚ) ≤ uniform 8 23 (latD i)
            linarith
          · show uniform 8 23 (latD i) ≤ (180 : ℚ)
            linarith
  | lon =>
      have hx' : fillCell (r₀.num WaterCleaner.WNum.lon)
          (some (uniform 102 110 (lonD i))) = some x := hx
      cases hw : r₀.num WaterCleaner.WNum.lon with
      | some w =>
          rw [hw] at hx'
          obtain rfl := Option.some.inj hx'
          exact h0 _ _ hw
      | none =>
          rw [hw] at hx'
          simp only [fillCell] at hx'
          obtain rfl := Option.some.inj hx'
          obtain ⟨hu1, hu2⟩ := uniform_mem 102 110 (lonD i) (by norm_num)
            (hlon i).1 (hlon i).2
          constructor
          · show (-180 : ℚ) ≤ uniform 102 110 (lonD i)
            linarith
          · show uniform 102 110 (lonD i) ≤ (180 : ℚ)
            linarith
  | annual_rainfall_mm => exact h0 _ _ hx
  | groundwater_depth => exact h0 _ _ hx
  | rainfall_24h => exact h0 _ _ hx
  | rainfall_7d => exact h0 _ _ hx
  | evaporation_rate => exact h0 _ _ hx
  | water_quality_index => exact h0 _ _ hx
  | estimated_bacterial_risk => exact h0 _ _ hx
  | estimated_pollution_risk => exact h0 _ _ hx
  | estimated_ph_risk => exact h0 _ _ hx
  | estimated_water_quality_score => exact h0 _ _ hx

/-- The escalation step keeps the bounds discipline (every simulated value
lies inside its column's clip range). -/
theorem WaterCleaner.escalate_wok {escD : ℕ → WaterCleaner.WNum → ℚ}
    {l : List WaterCleaner.WaterRow}
    (hesc : ∀ i c, 0 ≤ escD i c ∧ escD i c ≤ 1)
    (hl : ∀ r ∈ l, WaterCleaner.WOK r) :
    ∀ r ∈ WaterCleaner.escalate escD l, WaterCleaner.WOK r := by
  intro r hr c x hx
  unfold WaterCleaner.escalate at hr
  by_cases ht : WaterCleaner.escalationTriggered l
  · rw [if_pos ht] at hr
    obtain ⟨⟨r₀, i⟩, hp, rfl⟩ := List.mem_map.mp hr
    have h0 := hl r₀ (mem_withIdsFrom hp)
    have hx' : (if c ∈ WaterCleaner.importantCols ∧ (r₀.num c).isNone then
        some (WaterCleaner.simValue (escD i c) c)
      else r₀.num c) = some x := hx
    split at hx'
    · obtain rfl := Option.some.inj hx'
      exact WaterCleaner.simValue_bounds (hesc i c).1 (hesc i c).2 c
    · exact h0 _ _ hx'
  · rw [if_neg ht] at hr
    exact hl r hr c x hx

theorem AirCleaner.airRow_ext {a b : AirCleaner.AirRow}
    (h1 : a.num = b.num) (h2 : a.city = b.city) (h3 : a.province = b.province)
    (h4 : a.city_source = b.city_source) (h5 : a.source = b.source)
    (h6 : a.status = b.status)
    (h7 : a.weather_condition = b.weather_condition)
    (h8 : a.timestamp = b.timestamp) (h9 : a.latitude = b.latitude)
    (h10 : a.longitude = b.longitude) (h11 : a.uv_index = b.uv_index)
    (h12 : a.aqi_cn = b.aqi_cn) : a = b := by
  cases a
  cases b
  simp_all

/-- `drop_duplicates` is the identity on a duplicate-free frame. -/
theorem distinctByAux_id_self {α : Type _} [DecidableEq α] :
    ∀ {l : List α} {seen : List α}, l.Nodup → (∀ y ∈ l, y ∉ seen) →
      distinctByAux id seen l = l := by
  intro l
  induction l with
  | nil => intro seen _ _; rfl
  | cons x xs ih =>
      intro seen hnd hs
      have hx : (id x : α) ∉ seen := hs x (List.mem_cons_self x xs)
      simp only [distinctByAux, if_neg hx]
      rw [ih (List.nodup_cons.mp hnd).2]
      intro y hy
      intro hmem
      rcases List.mem_cons.mp hmem with rfl | hmem'
      · exact (List.nodup_cons.mp hnd).1 hy
      · exact hs y (List.mem_cons_of_mem x hy) hmem'

theorem distinctFirstSeen_self {α : Type _} [DecidableEq α] {l : List α}
    (h : l.Nodup) : distinctFirstSeen l = l :=
  distinctByAux_id_self h (fun y _ => List.not_mem_nil y)

/-- On a batch of rows in fully-cleaned canonical form, every step of
`clean_data` is the identity, hence so is `clean_data` itself. -/
theorem AirCleaner.cleanData_fixed {rows : List AirCleaner.AirRow}
    (hcf : ∀ r ∈ rows, AirCleaner.CleanForm r) (hnd : rows.Nodup) :
    AirCleaner.cleanData rows = rows := by
  have hnil : ∀ c, AirCleaner.colVals rows c = [] := by
    intro c
    refine List.filterMap_eq_nil_iff.mpr ?_
    intro r hr
    exact (hcf r hr).1 c (AirCleaner.NumCol.mem_all_num c)
  have hnumr : ∀ r ∈ rows, ∀ c, r.num c = none := fun r hr c =>
    (hcf r hr).1 c (AirCleaner.NumCol.mem_all_num c)
  have h1 : AirCleaner.fillMediansUnknown rows = rows := by
    unfold AirCleaner.fillMediansUnknown
    refine map_eq_self ?_
    intro r hr
    obtain ⟨hnum, hla, hlo, huv, haq, hts, hc1, hc2, hc3, hc4, hc5, hc6,
      hn1, hn2, hn3, hn4, hn5, hn6, hw⟩ := hcf r hr
    obtain ⟨v1, hv1⟩ := Option.isSome_iff_exists.mp hc1
    obtain ⟨v2, hv2⟩ := Option.isSome_iff_exists.mp hc2
    obtain ⟨v3, hv3⟩ := Option.isSome_iff_exists.mp hc3
    obtain ⟨v4, hv4⟩ := Option.isSome_iff_exists.mp hc4
    obtain ⟨v5, hv5⟩ := Option.isSome_iff_exists.mp hc5
    obtain ⟨v6, hv6⟩ := Option.isSome_iff_exists.mp hc6
    refine AirCleaner.airRow_ext ?_ ?_ ?_ ?_ ?_ ?_ ?_ rfl rfl rfl rfl rfl
    · funext c
      show fillCell (r.num c) (medianQ (AirCleaner.colVals rows c)) = r.num c
      rw [hnil c, hnum c (AirCleaner.NumCol.mem_all_num c)]
      rfl
    · show fillCellS r.city (some "unknown") = r.city
      rw [hv1]; rfl
    · show fillCellS r.province (some "unknown") = r.province
      rw [hv2]; rfl
    · show fillCellS r.city_source (some "unknown") = r.city_source
      rw [hv3]; rfl
    · show fillCellS r.source (some "unknown") = r.source
      rw [hv4]; rfl
    · show fillCellS r.status (some "unknown") = r.status
      rw [hv5]; rfl
    · show fillCellS r.weather_condition (some "unknown") = r.weather_condition
      rw [hv6]; rfl
  have h2 : AirCleaner.applyMinThresholds rows = rows := by
    unfold AirCleaner.applyMinThresholds
    refine map_eq_self ?_
    intro r hr
    refine AirCleaner.airRow_ext ?_ rfl rfl rfl rfl rfl rfl rfl rfl rfl rfl rfl
    funext c
    show (match AirCleaner.minThreshold c, r.num c with
      | some m, some x => some (if x ≤ m then m else x)
      | _, v => v) = r.num c
    rw [hnumr r hr c]
    cases AirCleaner.minThreshold c <;> rfl
  have h3 : AirCleaner.aqiBoundNull rows = rows := by
    unfold AirCleaner.aqiBoundNull
    refine map_eq_self ?_
    intro r hr
    refine AirCleaner.airRow_ext ?_ rfl rfl rfl rfl rfl rfl rfl rfl rfl rfl rfl
    funext c
    show (if c = AirCleaner.NumCol.aqi then
        (r.num AirCleaner.NumCol.aqi).bind fun x =>
          if x < 10 ∨ 500 < x then none else some x
      else r.num c) = r.num c
    by_cases hc : c = AirCleaner.NumCol.aqi
    · subst hc
      rw [if_pos rfl, hnumr r hr AirCleaner.NumCol.aqi]
      rfl
    · rw [if_neg hc]
  have h4 : AirCleaner.aqiFillMedian rows = rows := by
    unfold AirCleaner.aqiFillMedian
    refine map_eq_self ?_
    intro r hr
    refine AirCleaner.airRow_ext ?_ rfl rfl rfl rfl rfl rfl rfl rfl rfl rfl rfl
    funext c
    show (if c = AirCleaner.NumCol.aqi then
        fillCell (r.num AirCleaner.NumCol.aqi)
          (medianQ (AirCleaner.colVals rows AirCleaner.NumCol.aqi))
      else r.num c) = r.num c
    by_cases hc : c = AirCleaner.NumCol.aqi
    · subst hc
      rw [if_pos rfl, hnil, hnumr r hr AirCleaner.NumCol.aqi]
      rfl
    · rw [if_neg hc]
  have h5 : AirCleaner.clipRoundAll rows = rows := by
    unfold AirCleaner.clipRoundAll
    refine map_eq_self ?_
    intro r hr
    refine AirCleaner.airRow_ext ?_ rfl rfl rfl rfl rfl rfl rfl rfl rfl rfl rfl
    funext c
    show ((r.num c).map fun x => round2 (clipQ (some 0)
      (quantileQ (999 / 1000) (AirCleaner.colVals rows c)) x)) = r.num c
    rw [hnumr r hr c]
    rfl
  have h6 : AirCleaner.processTimestamps rows = rows := by
    unfold AirCleaner.processTimestamps
    refine map_eq_self ?_
    intro r hr
    exact AirCleaner.airRow_ext rfl rfl rfl rfl rfl rfl rfl
      ((hcf r hr).2.2.2.2.2.1) rfl rfl rfl rfl
  have h7 : AirCleaner.processWeather rows = rows := by
    unfold AirCleaner.processWeather
    refine map_eq_self ?_
    intro r hr
    obtain ⟨hnum, hla, hlo, huv, haq, hts, hc1, hc2, hc3, hc4, hc5, hc6,
      hn1, hn2, hn3, hn4, hn5, hn6, hw⟩ := hcf r hr
    exact AirCleaner.airRow_ext rfl rfl rfl rfl rfl rfl hw rfl rfl rfl rfl rfl
  have h8 : AirCleaner.normCategoricals rows = rows := by
    unfold AirCleaner.normCategoricals
    refine map_eq_self ?_
    intro r hr
    obtain ⟨hnum, hla, hlo, huv, haq, hts, hc1, hc2, hc3, hc4, hc5, hc6,
      hn1, hn2, hn3, hn4, hn5, hn6, hw⟩ := hcf r hr
    exact AirCleaner.airRow_ext rfl hn1 hn2 hn3 hn4 hn5 hn6 rfl rfl rfl rfl rfl
  have h9 : distinctFirstSeen rows = rows := distinctFirstSeen_self hnd
  have hgm : ∀ (cv : Option String) (get : AirCleaner.AirRow → Option ℚ),
      (∀ r ∈ rows, get r = none) →
      AirCleaner.groupMean rows cv get = none := by
    intro cv get hget
    unfold AirCleaner.groupMean
    have : (rows.filter fun r => decide (r.city = cv)).filterMap get = [] := by
      refine List.filterMap_eq_nil_iff.mpr ?_
      intro r hr
      exact hget r (List.mem_of_mem_filter hr)
    rw [this]
    rfl
  have h10 : AirCleaner.lonStep rows = rows := by
    unfold AirCleaner.lonStep
    have hv : rows.map (fun r =>
        { r with longitude :=
            AirCleaner.validateCoord (-180) 180 r.longitude }) = rows := by
      refine map_eq_self ?_
      intro r hr
      refine AirCleaner.airRow_ext rfl rfl rfl rfl rfl rfl rfl rfl rfl ?_
        rfl rfl
      show AirCleaner.validateCoord (-180) 180 r.longitude = r.longitude
      rw [(hcf r hr).2.2.1]
      rfl
    rw [hv]
    refine map_eq_self ?_
    intro r hr
    obtain ⟨hnum, hla, hlo, huv, haq, hts, hc1, hc2, hc3, hc4, hc5, hc6,
      hn1, hn2, hn3, hn4, hn5, hn6, hw⟩ := hcf r hr
    cases hcity : r.city with
    | none => rw [hcity] at hc1; simp at hc1
    | some v1 =>
      refine AirCleaner.airRow_ext rfl hcity.symm rfl rfl rfl rfl rfl rfl rfl
        ?_ rfl rfl
      show fillCell r.longitude
        (AirCleaner.groupMean rows (some v1) (fun x => x.longitude)) =
          r.longitude
      rw [hlo, hgm (some v1) (fun x => x.longitude)
        (fun r' hr' => (hcf r' hr').2.2.1)]
      rfl
  have h11 : AirCleaner.latStep rows = rows := by
    unfold AirCleaner.latStep
    have hv : rows.map (fun r =>
        { r with latitude :=
            AirCleaner.validateCoord (-90) 90 r.latitude }) = rows := by
      refine map_eq_self ?_
      intro r hr
      refine AirCleaner.airRow_ext rfl rfl rfl rfl rfl rfl rfl rfl ?_ rfl
        rfl rfl
      show AirCleaner.validateCoord (-90) 90 r.latitude = r.latitude
      rw [(hcf r hr).2.1]
      rfl
    rw [hv]
    refine map_eq_self ?_
    intro r hr
    obtain ⟨hnum, hla, hlo, huv, haq, hts, hc1, hc2, hc3, hc4, hc5, hc6,
      hn1, hn2, hn3, hn4, hn5, hn6, hw⟩ := hcf r hr
    cases hcity : r.city with
    | none => rw [hcity] at hc1; simp at hc1
    | some v1 =>
      refine AirCleaner.airRow_ext rfl hcity.symm rfl rfl rfl rfl rfl rfl ?_
        rfl rfl rfl
      show fillCell r.latitude
        (AirCleaner.groupMean rows (some v1) (fun x => x.latitude)) =
          r.latitude
      rw [hla, hgm (some v1) (fun x => x.latitude)
        (fun r' hr' => (hcf r' hr').2.1)]
      rfl
  have h12 : AirCleaner.dropExtraCols rows = rows := by
    unfold AirCleaner.dropExtraCols
    refine map_eq_self ?_
    intro r hr
    exact AirCleaner.airRow_ext rfl rfl rfl rfl rfl rfl rfl rfl rfl rfl
      ((hcf r hr).2.2.2.1).symm ((hcf r hr).2.2.2.2.1).symm
  unfold AirCleaner.cleanData
  rw [h1, h2, h3, h4, h5, h6, h7, h8, h9, h10, h11, h12]

/-! ## The claims -/

/-- **C1**, counterexample.  The air cleaner enforces no `[0, 100]` humidity
bound at all: on the one-record batch with humidity `150`, the cleaned batch
still carries `150` — out of the documented bound, not nulled, not clamped.
Hence it is false that after cleaning every numeric field with a documented
physical bound is within bound or null. -/
theorem C1_counterexample :
    ¬ (∀ rows : List AirCleaner.AirRow,
        ∀ r ∈ AirCleaner.cleanData rows,
        ∀ x, r.num AirCleaner.NumCol.humidity = some x →
          0 ≤ x ∧ x ≤ 100) := by
  intro h
  have hm : Inputs.cleanedHumidityRow ∈
      AirCleaner.cleanData Inputs.humidityBatch := by decide
  have hb := h Inputs.humidityBatch Inputs.cleanedHumidityRow hm 150
    (by decide)
  exact absurd hb.2 (by norm_num)

/-- **C1**, amended.  After cleaning, every numeric field that the code
actually bounds is within its bound or null: the air cleaner's AQI is in
`[10, 500]` or null (out-of-bound AQI is nulled, then median-refilled, and
the final quantile clip and rounding stay inside the bound); every float
column of the water cleaner is within its clip range or null (out-of-range
values are **clamped** to the bound rather than nulled, missing cells are
filled with in-range defaults or in-range simulated values).  Air fields
other than AQI (e.g. humidity) have no enforced bound — see the
counterexample. -/
theorem C1_amended :
    (∀ rows : List AirCleaner.AirRow,
        ∀ r ∈ AirCleaner.cleanData rows,
        ∀ x, r.num AirCleaner.NumCol.aqi = some x → 10 ≤ x ∧ x ≤ 500) ∧
    (∀ (latD lonD : ℕ → ℚ) (escD : ℕ → WaterCleaner.WNum → ℚ)
        (now : String) (rows : List WaterCleaner.WaterRow),
        (∀ i, 0 ≤ latD i ∧ latD i ≤ 1) →
        (∀ i, 0 ≤ lonD i ∧ lonD i ≤ 1) →
        (∀ i c, 0 ≤ escD i c ∧ escD i c ≤ 1) →
        ∀ r ∈ WaterCleaner.cleanWaterDf latD lonD escD now rows,
        ∀ c x, r.num c = some x →
          (WaterCleaner.clipBounds c).1 ≤ x ∧
            x ≤ (WaterCleaner.clipBounds c).2) := by
  constructor
  · intro rows r hr x hx
    unfold AirCleaner.cleanData at hr
    obtain ⟨r₄, h₄, he⟩ := AirCleaner.num_transport hr
    exact AirCleaner.aqi_bounds_after_clip
      (AirCleaner.aqi_bounds_after_fill _) r₄ h₄ x (by rw [← he]; exact hx)
  · intro latD lonD escD now rows hlat hlon hesc r hr c x hx
    unfold WaterCleaner.cleanWaterDf at hr
    refine WaterCleaner.escalate_wok hesc
      (WaterCleaner.fillStep_wok hlat hlon ?_) r hr c x hx
    intro r' hr' c' x' hx'
    obtain ⟨r₀, h₀, he⟩ := WaterCleaner.midNum hr'
    exact WaterCleaner.floatStep_wok r₀ h₀ c' x' (by rw [← he]; exact hx')

/-- **C4**, counterexample.  On the batch whose AQI column is
`[5, 55, 600, null, 120]`, the cleaned AQI column is *not* the claimed
`[87.5, 55, 87.5, 87.5, 120]`: `clean_data` ends by clipping every numeric
column to its `0.999` quantile, which lowers the top value `120`. -/
theorem C4_counterexample :
    (AirCleaner.cleanData Inputs.aqiBatch).map
        (fun r => r.num AirCleaner.NumCol.aqi) ≠
      [some 87.5, some 55, some 87.5, some 87.5, some 120] := by
  decide

/-- **C4**, amended.  On the batch whose AQI column is
`[5, 55, 600, null, 120]`, cleaning fills the original null with `87.5`
(the batch median of `{5, 55, 600, 120}`), nulls the out-of-bound `5` and
`600` and refills them with `87.5` (the median of the remaining
`{55, 87.5, 120}`), and finally the `0.999`-quantile cap lowers `120` to
`119.87`: the cleaned AQI column is exactly `[87.5, 55, 87.5, 87.5, 119.87]`. -/
theorem C4_amended :
    (AirCleaner.cleanData Inputs.aqiBatch).map
        (fun r => r.num AirCleaner.NumCol.aqi) =
      [some 87.5, some 55, some 87.5, some 87.5, some 119.87] := by
  decide

/-- **C5**, counterexample.  Cleaning is not idempotent: on the two-record
batch with AQI values `10` and `500` (both within bound) the first run caps
`500` to the `0.999` quantile `499.51`, and the second run caps that again
to `499.02`, so `clean(clean(b)) ≠ clean(b)`. -/
theorem C5_counterexample :
    AirCleaner.cleanData (AirCleaner.cleanData Inputs.capBatch) ≠
      AirCleaner.cleanData Inputs.capBatch := by
  decide

/-- **C5**, amended theorem.  On any batch whose rows are already in fully
cleaned canonical form (all numeric and coordinate cells null, categorical
cells filled and normalisation fixpoints, canonical timestamps) and pairwise
distinct, `clean_data` is the identity — and therefore idempotent: a second
run returns exactly the first run's output. -/
theorem C5_amended (rows : List AirCleaner.AirRow)
    (hcf : ∀ r ∈ rows, AirCleaner.CleanForm r) (hnd : rows.Nodup) :
    AirCleaner.cleanData rows = rows ∧
      AirCleaner.cleanData (AirCleaner.cleanData rows) =
        AirCleaner.cleanData rows := by
  have h := AirCleaner.cleanData_fixed hcf hnd
  exact ⟨h, congrArg AirCleaner.cleanData h⟩

/-- Witness for the amended C5 theorem: the one-row canonical batch
`Inputs.fixedBatch` satisfies both hypotheses, and cleaning fixes it. -/
theorem C5_amended_witness :
    AirCleaner.cleanData Inputs.fixedBatch = Inputs.fixedBatch ∧
      AirCleaner.cleanData (AirCleaner.cleanData Inputs.fixedBatch) =
        AirCleaner.cleanData Inputs.fixedBatch :=
  C5_amended Inputs.fixedBatch (by decide) (by decide)

/-- **C6**.  The soil crawl orchestrator produces exactly one result record
per submitted location and never raises: the record paired with each
location carries that location's name, province and coordinates and the
batch timestamp, and when the provider attempt fails for a location its
record additionally carries `success = false` and the error message — one
failing location affects no other record (each record is a function of its
own location alone). -/
theorem C6_one_record_per_location :
    ∀ (now : String)
      (attempt : SoilCrawler.Loc → Except String SoilCrawler.SoilData)
      (locs : List SoilCrawler.Loc),
      (SoilCrawler.runCrawlBatch now attempt locs).length = locs.length ∧
      ∀ loc r,
        (loc, r) ∈ locs.zip (SoilCrawler.runCrawlBatch now attempt locs) →
        (r.location = loc.name ∧ r.province = loc.province ∧
          r.lat = loc.lat ∧ r.lon = loc.lon ∧ r.timestamp = now) ∧
        ∀ e, attempt loc = .error e →
          r.success = some false ∧ r.error_message = some e := by
  intro now attempt locs
  constructor
  · simp [SoilCrawler.runCrawlBatch]
  · intro loc r hmem
    have hr : r = SoilCrawler.crawlSoilLocation now attempt loc :=
      zip_map_snd (SoilCrawler.crawlSoilLocation now attempt) hmem
    subst hr
    unfold SoilCrawler.crawlSoilLocation
    cases h : attempt loc with
    | ok d => exact ⟨⟨rfl, rfl, rfl, rfl, rfl⟩, fun e he => Except.noConfusion he⟩
    | error e' =>
        refine ⟨⟨rfl, rfl, rfl, rfl, rfl⟩, fun e he => ?_⟩
        injection he with h1
        subst h1
        exact ⟨rfl, rfl⟩

/-- **C7**, counterexample.  The water clean/transform/load endpoint does not
probe store connectivity before writing: with the store down, its event
trace does not begin with a probe, and the reported status is the generic
HTTP 500, not a distinct store-connectivity error. -/
theorem C7_counterexample :
    ¬ ((Load.waterCleanerLoad false).1.head? = some Load.Event.probe ∧
        (Load.waterCleanerLoad false).2 = Load.LoadStatus.dbConnectionFailed) := by
  decide

/-- **C7**, amended.  The air cleaner endpoint probes first and, when the
probe fails, aborts with the distinct `"Database connection failed"` status
having attempted no write.  The water cleaner endpoint never probes: with
the store down it attempts the first dimension replace directly (the
remaining writes are never reached) and reports the generic HTTP 500. -/
theorem C7_amended :
    (∀ dbUp : Bool,
        (Load.airCleanerLoad dbUp).1.head? = some Load.Event.probe) ∧
    ((Load.airCleanerLoad false).1 = [Load.Event.probe] ∧
      (Load.airCleanerLoad false).2 = Load.LoadStatus.dbConnectionFailed) ∧
    (∀ dbUp : Bool, Load.Event.probe ∉ (Load.waterCleanerLoad dbUp).1) ∧
    ((Load.waterCleanerLoad false).1 =
        [Load.Event.write ⟨"water_province", Load.Mode.replace⟩] ∧
      (Load.waterCleanerLoad false).2 = Load.LoadStatus.httpError) := by
  refine ⟨fun dbUp => ?_, by decide, fun dbUp => ?_, by decide⟩ <;>
    cases dbUp <;> decide

/-- **C8**.  The code at the failing input: a soilgrids cache entry written
at hour `0` and read at hour `200` is older than the one-week TTL
(`168` hours), yet `load_cached_data` still returns it (its stale branch
only logs before falling through to `return data`), and `get_soilgrids_data`
then short-circuits on it — the network fetch is skipped for a stale
entry, whatever the fetch would return. -/
theorem C8_stale_cache_hit :
    SoilCrawler.loadCachedData 200 168 (some Inputs.staleEntry) =
        some Inputs.staleEntry ∧
      ∀ fetchNet,
        SoilCrawler.getSoilgridsData 200 (some Inputs.staleEntry) fetchNet =
          (some Inputs.staleEntry.payload, false) := by
  exact ⟨rfl, fun _ => rfl⟩

/-- The provenance triple of a water row. -/
def WaterCleaner.prov (r : WaterCleaner.WaterRow) :
    Option Bool × Option String × Option String :=
  (r.success, r.error_code, r.error_message)

/-- `escalate` keeps every row's provenance triple. -/
theorem WaterCleaner.escalate_prov {d l} {r : WaterCleaner.WaterRow}
    (h : r ∈ WaterCleaner.escalate d l) :
    ∃ r₀ ∈ l, WaterCleaner.prov r = WaterCleaner.prov r₀ := by
  unfold WaterCleaner.escalate at h
  by_cases ht : WaterCleaner.escalationTriggered l
  · rw [if_pos ht] at h
    obtain ⟨p, hp, rfl⟩ := List.mem_map.mp h
    exact ⟨p.1, mem_withIdsFrom hp, rfl⟩
  · rw [if_neg ht] at h
    exact ⟨r, h, rfl⟩

/-- `fillStep` keeps every row's provenance triple. -/
theorem WaterCleaner.fillStep_prov {latD lonD now l}
    {r : WaterCleaner.WaterRow}
    (h : r ∈ WaterCleaner.fillStep latD lonD now l) :
    ∃ r₀ ∈ l, WaterCleaner.prov r = WaterCleaner.prov r₀ := by
  obtain ⟨p, hp, rfl⟩ := List.mem_map.mp h
  exact ⟨p.1, mem_withIdsFrom hp, rfl⟩

/-- The steps between the provenance-column handling and the positional
fills keep every row's provenance triple. -/
theorem WaterCleaner.mid_prov {l} {r : WaterCleaner.WaterRow}
    (h : r ∈ WaterCleaner.tsFilter (WaterCleaner.tsStep
      (WaterCleaner.strStep (WaterCleaner.floatStep
        (WaterCleaner.requiredFilter l))))) :
    ∃ r₀ ∈ l, WaterCleaner.prov r = WaterCleaner.prov r₀ := by
  have h₁ := List.mem_of_mem_filter h
  obtain ⟨r₂, h₂, rfl⟩ := List.mem_map.mp h₁
  obtain ⟨r₃, h₃, rfl⟩ := List.mem_map.mp h₂
  obtain ⟨r₄, h₄, rfl⟩ := List.mem_map.mp h₃
  exact ⟨r₄, List.mem_of_mem_filter h₄, rfl⟩

/-- Every row surviving the head of the water pipeline — success filter,
provenance-column drop, dedup — is a success row with the error columns
cleared. -/
theorem WaterCleaner.whead_prov {rows} {r : WaterCleaner.WaterRow}
    (h : r ∈ WaterCleaner.dedupLocTs
      (WaterCleaner.dropErrCols (WaterCleaner.successFilter rows))) :
    WaterCleaner.prov r = (some true, none, none) := by
  have h₁ := mem_of_mem_distinctByAux h
  obtain ⟨r₂, h₂, rfl⟩ := List.mem_map.mp h₁
  have h₃ := List.of_mem_filter h₂
  have : r₂.success = some true := of_decide_eq_true h₃
  simp [WaterCleaner.prov, this]

/-- The provenance triple of a climate row. -/
def ClimateCleaner.prov (r : ClimateCleaner.ClimateRow) :
    Option Bool × Option String × Option String :=
  (r.success, r.error_code, r.error_message)

/-- The climate pipeline after the dedup keeps every row's provenance
triple. -/
theorem ClimateCleaner.tail_prov {latD lonD now l}
    {r : ClimateCleaner.ClimateRow}
    (h : r ∈ ClimateCleaner.fillStep latD lonD now
      (ClimateCleaner.humidityFilter (ClimateCleaner.tsTempFilter
        (ClimateCleaner.tsStep (ClimateCleaner.strStep
          (ClimateCleaner.floatStep
            (ClimateCleaner.requiredFilter l))))))) :
    ∃ r₀ ∈ l, ClimateCleaner.prov r = ClimateCleaner.prov r₀ := by
  obtain ⟨⟨r₁, i⟩, hp, rfl⟩ := List.mem_map.mp h
  have h₁ := mem_withIdsFrom hp
  have h₂ := List.mem_of_mem_filter h₁
  have h₃ := List.mem_of_mem_filter (List.mem_of_mem_filter h₂)
  obtain ⟨r₄, h₄, rfl⟩ := List.mem_map.mp h₃
  obtain ⟨r₅, h₅, rfl⟩ := List.mem_map.mp h₄
  obtain ⟨r₆, h₆, rfl⟩ := List.mem_map.mp h₅
  exact ⟨r₆, List.mem_of_mem_filter h₆, rfl⟩

/-- Every row surviving the head of the climate pipeline is a success row
with the error columns cleared. -/
theorem ClimateCleaner.chead_prov {rows} {r : ClimateCleaner.ClimateRow}
    (h : r ∈ ClimateCleaner.dedupLocTs
      (ClimateCleaner.dropErrCols (ClimateCleaner.successFilter rows))) :
    ClimateCleaner.prov r = (some true, none, none) := by
  have h₁ := mem_of_mem_distinctByAux h
  obtain ⟨r₂, h₂, rfl⟩ := List.mem_map.mp h₁
  have h₃ := List.of_mem_filter h₂
  have : r₂.success = some true := of_decide_eq_true h₃
  simp [ClimateCleaner.prov, this]

/-- **C10**.  The water and climate cleaners keep only successful readings:
every row of the cleaned batch has `success = True`, and the
`error_code`/`error_message` provenance columns are removed (the success
filter and the column drop are the first row operations of both pipelines,
and no later step reintroduces either). -/
theorem C10_only_success_rows :
    (∀ (latD lonD : ℕ → ℚ) (escD : ℕ → WaterCleaner.WNum → ℚ) (now : String)
        (rows : List WaterCleaner.WaterRow),
        ∀ r ∈ WaterCleaner.cleanWaterDf latD lonD escD now rows,
          r.success = some true ∧ r.error_code = none ∧
            r.error_message = none) ∧
    (∀ (latD lonD : ℕ → ℚ) (now : String)
        (rows : List ClimateCleaner.ClimateRow),
        ∀ r ∈ ClimateCleaner.cleanClimateDf latD lonD now rows,
          r.success = some true ∧ r.error_code = none ∧
            r.error_message = none) := by
  constructor
  · intro latD lonD escD now rows r hr
    unfold WaterCleaner.cleanWaterDf at hr
    obtain ⟨r₁, h₁, e₁⟩ := WaterCleaner.escalate_prov hr
    obtain ⟨r₂, h₂, e₂⟩ := WaterCleaner.fillStep_prov h₁
    obtain ⟨r₃, h₃, e₃⟩ := WaterCleaner.mid_prov h₂
    have e₄ := WaterCleaner.whead_prov h₃
    have : WaterCleaner.prov r = (some true, none, none) :=
      (e₁.trans (e₂.trans e₃)).trans e₄
    exact ⟨congrArg Prod.fst this,
      congrArg (fun p => p.2.1) this, congrArg (fun p => p.2.2) this⟩
  · intro latD lonD now rows r hr
    unfold ClimateCleaner.cleanClimateDf at hr
    obtain ⟨r₁, h₁, e₁⟩ := ClimateCleaner.tail_prov hr
    have e₂ := ClimateCleaner.chead_prov h₁
    have : ClimateCleaner.prov r = (some true, none, none) := e₁.trans e₂
    exact ⟨congrArg Prod.fst this,
      congrArg (fun p => p.2.1) this, congrArg (fun p => p.2.2) this⟩

/-- **C2**.  Referential integrity of the dimensional transforms: every
non-null foreign key of a fact row equals the surrogate key of some row of
the corresponding dimension table built from the same batch (air: `city_id`,
`source_id`, `condition_id`; water: `location_id`, `province_id`,
`region_id`, `source_type_id`, `river_id`, `category_id`). -/
theorem C2_referential_integrity :
    (∀ rows : List AirCleaner.AirRow,
        ∀ f ∈ (AirCleaner.transformData rows).facts,
          (∀ k, f.city_id = some k →
            k ∈ (AirCleaner.transformData rows).cities.map Prod.snd) ∧
          (∀ k, f.source_id = some k →
            k ∈ (AirCleaner.transformData rows).sources.map Prod.snd) ∧
          (∀ k, f.condition_id = some k →
            k ∈ (AirCleaner.transformData rows).conditions.map Prod.snd)) ∧
    (∀ rows : List WaterCleaner.WaterRow,
        ∀ f ∈ (WaterCleaner.transformWater3nf rows).facts,
          (∀ k, f.location_id = some k →
            k ∈ (WaterCleaner.transformWater3nf rows).locations.map
              Prod.snd) ∧
          (∀ k, f.province_id = some k →
            k ∈ (WaterCleaner.transformWater3nf rows).provinces.map
              Prod.snd) ∧
          (∀ k, f.region_id = some k →
            k ∈ (WaterCleaner.transformWater3nf rows).regions.map
              Prod.snd) ∧
          (∀ k, f.source_type_id = some k →
            k ∈ (WaterCleaner.transformWater3nf rows).sourceTypes.map
              Prod.snd) ∧
          (∀ k, f.river_id = some k →
            k ∈ (WaterCleaner.transformWater3nf rows).rivers.map
              Prod.snd) ∧
          (∀ k, f.category_id = some k →
            k ∈ (WaterCleaner.transformWater3nf rows).categories.map
              Prod.snd)) := by
  constructor
  · intro rows f hf
    simp only [AirCleaner.transformData] at hf ⊢
    obtain ⟨rp, hrp, rfl⟩ := List.mem_map.mp hf
    refine ⟨fun k hk => ?_, fun k hk => ?_, fun k hk => ?_⟩
    · have h := lookupLast_mem hk
      simpa [List.map_map, Function.comp] using h
    · exact lookupLast_mem hk
    · exact lookupLast_mem hk
  · intro rows f hf
    simp only [WaterCleaner.transformWater3nf] at hf ⊢
    obtain ⟨r, hr, rfl⟩ := List.mem_map.mp hf
    refine ⟨fun k hk => ?_, fun k hk => ?_, fun k hk => ?_,
      fun k hk => ?_, fun k hk => ?_, fun k hk => ?_⟩ <;>
      simp only [] at hk <;> split at hk
    case isTrue => exact absurd hk (by simp)
    case isFalse =>
        have h := lookupLast_mem hk
        simpa [List.map_map, Function.comp] using h
    case isTrue => exact absurd hk (by simp)
    case isFalse =>
        have h := lookupLast_mem hk
        simpa [List.map_map, Function.comp] using h
    case isTrue => exact absurd hk (by simp)
    case isFalse => exact lookupLast_mem hk
    case isTrue => exact absurd hk (by simp)
    case isFalse => exact lookupLast_mem hk
    case isTrue => exact absurd hk (by simp)
    case isFalse => exact lookupLast_mem hk
    case isTrue => exact absurd hk (by simp)
    case isFalse => exact lookupLast_mem hk

/-- **C2**, witness: on the two-record batch `cityDupBatch` the first fact
row's non-null `city_id = 2` is a surrogate key present in the `City`
dimension of the same batch. -/
theorem C2_witness :
    (2 : ℕ) ∈ (AirCleaner.transformData Inputs.cityDupBatch).cities.map
      Prod.snd :=
  (C2_referential_integrity.1 Inputs.cityDupBatch Inputs.cityFact
    (by decide)).1 2 (by decide)

/-- **C3**, counterexample.  On a cleaned batch with two readings for the
same `(city, province)` natural key at different coordinates, the `City`
dimension dedups over `(city, province, latitude, longitude)` and therefore
assigns **two** surrogate keys to one natural-key tuple. -/
theorem C3_counterexample :
    ∃ p ∈ (AirCleaner.transformData
        (AirCleaner.cleanData Inputs.cityDupBatch)).cities,
      ∃ q ∈ (AirCleaner.transformData
          (AirCleaner.cleanData Inputs.cityDupBatch)).cities,
        (p.1.1, p.1.2.1) = (q.1.1, q.1.2.1) ∧ p.2 ≠ q.2 := by
  decide

/-- **C3**, amended.  For every batch and every dimension of the air and
water transforms, surrogate keys `1..k` are assigned sequentially to the
dimension's distinct **dedup tuples** in first-seen input order (not
sorted); within one batch no two distinct tuples share a key and no tuple
receives two keys.  The dedup tuple of `City`/`Location` extends the
`(name, province)` natural key with the coordinate (and region) columns, so
one natural key may receive several keys when those extra columns differ
(see the counterexample). -/
theorem C3_amended :
    ∀ (rowsA : List AirCleaner.AirRow) (rowsW : List WaterCleaner.WaterRow),
      DimAssign
        (rowsA.map fun r => (r.city, r.province, r.latitude, r.longitude))
        (AirCleaner.transformData rowsA).cities ∧
      DimAssign (rowsA.map fun r => r.source)
        (AirCleaner.transformData rowsA).sources ∧
      DimAssign (rowsA.map fun r => r.weather_condition)
        (AirCleaner.transformData rowsA).conditions ∧
      DimAssign
        (rowsW.map fun r =>
          (r.str WaterCleaner.WStr.province, r.str WaterCleaner.WStr.region))
        (WaterCleaner.transformWater3nf rowsW).provinces ∧
      DimAssign (rowsW.map fun r => r.str WaterCleaner.WStr.region)
        (WaterCleaner.transformWater3nf rowsW).regions ∧
      DimAssign (rowsW.map fun r => r.str WaterCleaner.WStr.major_river)
        (WaterCleaner.transformWater3nf rowsW).rivers ∧
      DimAssign
        (rowsW.map fun r => r.str WaterCleaner.WStr.water_quality_category)
        (WaterCleaner.transformWater3nf rowsW).categories ∧
      DimAssign
        (rowsW.map fun r =>
          (r.str WaterCleaner.WStr.location, r.str WaterCleaner.WStr.province,
           r.num WaterCleaner.WNum.lat, r.num WaterCleaner.WNum.lon,
           r.str WaterCleaner.WStr.region))
        (WaterCleaner.transformWater3nf rowsW).locations ∧
      DimAssign
        (rowsW.map fun r => r.str WaterCleaner.WStr.water_source_type)
        (WaterCleaner.transformWater3nf rowsW).sourceTypes := by
  intro rowsA rowsW
  exact ⟨mkDim_dimAssign _, mkDim_dimAssign _, mkDim_dimAssign _,
    mkDim_dimAssign _, mkDim_dimAssign _, mkDim_dimAssign _,
    mkDim_dimAssign _, mkDim_dimAssign _, mkDim_dimAssign _⟩

/-- **C9**.  At both crawl endpoints an explicit `locations` list in the
request body replaces the configured registry entirely: whatever the filter
criteria and the configured list, the selected locations are exactly the
explicit list. -/
theorem C9_locations_override :
    (∀ (configured : List WaterCrawler.Loc)
        (bf : Option WaterCrawler.Criteria) (ls : List WaterCrawler.Loc),
        WaterCrawler.runWaterCrawlSelect configured bf (some ls) = ls) ∧
    (∀ (configured : List SoilCrawler.Loc) (fil : SoilCrawler.SoilFilter)
        (ls : List SoilCrawler.Loc),
        SoilCrawler.selectSoilLocations configured ⟨fil, some ls⟩ = ls) := by
  exact ⟨fun _ _ _ => rfl, fun _ _ _ => rfl⟩

end VnEnv
